import Mathlib

/-!
A verification development for the x402 HTTP resource server
(`x402HTTPResourceServer`): a shallow embedding of its route compilation,
path normalization, payment extraction, verification/settlement
orchestration, response composition and startup validation, together with
theorems settling the specified properties.

External collaborators (the core `x402ResourceServer` a.k.a. Resource
Authority, the sibling header codec module, the optional paywall module)
are modelled as a bundle of function-valued fields (`Env`); calls that may
throw in JavaScript are modelled with `Except ThrownError`. JavaScript
string truthiness (`x || y`), `String.prototype.toUpperCase` (restricted
to ASCII, which is all the development exercises), `decodeURIComponent`
(strict UTF-8 percent decoding), and the regexes used by the source are
modelled explicitly below.
-/

namespace X402

/-- A JavaScript `unknown` value, as far as this development needs to
distinguish them: strings (paywall HTML), the empty-object default body,
and otherwise-uninterpreted values. -/
inductive Unknown where
  | str (s : String)
  | emptyObj
  | val (n : Nat)
  deriving DecidableEq, Repr

/-- Extension data (`Record<string, unknown>`). -/
def Ext : Type := List (String × Unknown)

instance : DecidableEq Ext := by
  unfold Ext
  infer_instance

/-- The fully resolved payment requirement descriptor (type
`PaymentRequirements` from the sibling `types` module, outside `src/`):
only the fields this core reads are carried, the rest is immaterial. -/
structure PaymentRequirements where
  scheme : String
  network : String
  payTo : String
  amount : String
  deriving DecidableEq, Repr

/-- The decoded client payment proof (type `PaymentPayload` from the
sibling `types` module): opaque to this core. -/
structure PaymentPayload where
  raw : String
  deriving DecidableEq, Repr

/-- Result of the Resource Authority's verify operation. -/
structure VerifyResult where
  isValid : Bool
  invalidReason : Option String
  deriving DecidableEq, Repr

/-- Settlement response (type `SettleResponse` from the sibling `types`
module): the fields the settlement orchestrator reads and copies. -/
structure SettleResponse where
  success : Bool
  errorReason : Option String := none
  payer : Option String := none
  network : Option String := none
  transaction : Option String := none
  deriving DecidableEq, Repr

/-- A thrown JavaScript value, as far as the catch-blocks of the source
distinguish them: a structured `SettleError` (which extends `Error`), any
other `Error` (with a message), or a thrown non-`Error` value. -/
inductive ThrownError where
  | settleErr (errorReason : Option String) (message : String)
      (payer : String) (network : String) (transaction : String)
  | jsError (message : String)
  | nonError
  deriving DecidableEq, Repr

/-- Resource metadata attached to the payment-required descriptor. -/
structure ResourceInfo where
  url : String
  description : String
  mimeType : String
  deriving DecidableEq, Repr

/-- Modelled from the spec: the protocol "payment required" descriptor
built by the Resource Authority's `createPaymentRequiredResponse`
(implemented in the core `x402ResourceServer`, outside `src/`). Per the
spec it carries the requirement set on offer, the resource metadata, an
optional human-readable reason and optional extension data. -/
structure PaymentRequired where
  accepts : List PaymentRequirements
  resource : ResourceInfo
  error : Option String
  extensions : Option Ext

/-- Modelled from the spec: `createPaymentRequiredResponse(requirements,
resourceInfo, reason?, extensions?) -> descriptor` simply assembles the
descriptor from its inputs. -/
def createPaymentRequiredResponse (requirements : List PaymentRequirements)
    (resourceInfo : ResourceInfo) (error : Option String)
    (extensions : Option Ext) : PaymentRequired :=
  { accepts := requirements, resource := resourceInfo, error := error,
    extensions := extensions }

/-- Paywall configuration (interface `PaywallConfig`). -/
structure PaywallConfig where
  appName : Option String := none
  appLogo : Option String := none
  sessionTokenEndpoint : Option String := none
  currentUrl : Option String := none
  testnet : Option Bool := none

/-- Result of the unpaid response callback (interface
`UnpaidResponseResult`). -/
structure UnpaidResponseResult where
  contentType : String
  body : Unknown

/-- Framework adapter (interface `HTTPAdapter`): header lookup plus the
request attributes the server reads. `getHeader` returning `none` models
an absent header. -/
structure HTTPAdapter where
  getHeader : String → Option String
  method : String
  path : String
  url : String
  accept : String
  userAgent : String

/-- HTTP request context (interface `HTTPRequestContext`). -/
structure HTTPRequestContext where
  adapter : HTTPAdapter
  path : String
  method : String
  paymentHeader : Option String := none

/-- A price (type `Price` from the sibling `types` module; opaque). -/
structure Price where
  amount : String
  asset : String

/-- A payee that is either static or resolved from the request context
(type `string | DynamicPayTo`); dynamic resolution may throw. -/
inductive PayToField where
  | static (payTo : String)
  | dynamic (f : HTTPRequestContext → Except ThrownError String)

/-- A price that is either static or resolved from the request context
(type `Price | DynamicPrice`); dynamic resolution may throw. -/
inductive PriceField where
  | static (price : Price)
  | dynamic (f : HTTPRequestContext → Except ThrownError Price)

/-- One payment option of a route (interface `PaymentOption`). -/
structure PaymentOption where
  scheme : String
  payTo : PayToField
  price : PriceField
  network : String
  maxTimeoutSeconds : Option Nat := none
  extra : Option Ext := none

/-- Route configuration (interface `RouteConfig`). The `accepts` field is
a single option or an array; the unpaid-response generator may suspend and
may throw. -/
structure RouteConfig where
  accepts : PaymentOption ⊕ List PaymentOption
  resource : Option String := none
  description : Option String := none
  mimeType : Option String := none
  customPaywallHtml : Option String := none
  unpaidResponseBody : Option (HTTPRequestContext → Except ThrownError UnpaidResponseResult) := none
  extensions : Option Ext := none

/-- Routes configuration (type `RoutesConfig`): either a single config
applied to all paths (a value with an `accepts` field) or an
insertion-ordered table of pattern/config entries (`Object.entries`
order). -/
inductive RoutesConfig where
  | single (config : RouteConfig)
  | table (entries : List (String × RouteConfig))

/-- Compiled route (interface `CompiledRoute`): the parsed verb, the
compiled matcher (`RegExp.test` modelled as a boolean function on the
normalized path) and the config. -/
structure CompiledRoute where
  verb : String
  regex : String → Bool
  config : RouteConfig

/-- HTTP response instructions (interface `HTTPResponseInstructions`).
Headers keep JavaScript object-literal insertion order. -/
structure HTTPResponseInstructions where
  status : Nat
  headers : List (String × String)
  body : Option Unknown
  isHtml : Option Bool

/-- Result of processing an HTTP request (type `HTTPProcessResult`). -/
inductive HTTPProcessResult where
  | noPaymentRequired
  | paymentVerified (paymentPayload : PaymentPayload)
      (paymentRequirements : PaymentRequirements)
  | paymentError (response : HTTPResponseInstructions)

/-- The failure shape of `processSettlement`
(`ProcessSettleFailureResponse` = `SettleResponse & \x7b success: false,
errorReason: string \x7d`, with `success` implied by the constructor). -/
structure SettleFailure where
  errorReason : String
  payer : Option String := none
  network : Option String := none
  transaction : Option String := none
  deriving DecidableEq, Repr

/-- Result of `processSettlement` (`ProcessSettleResultResponse`). -/
inductive ProcessSettleResult where
  | success (resp : SettleResponse) (headers : List (String × String))
      (requirements : PaymentRequirements)
  | failure (f : SettleFailure)
  deriving DecidableEq, Repr

/-- A validation error for one route payment option (interface
`RouteValidationError`). -/
inductive ValidationReason where
  | missing_scheme
  | missing_facilitator
  deriving DecidableEq, Repr

structure RouteValidationError where
  routePattern : String
  scheme : String
  network : String
  reason : ValidationReason
  message : String
  deriving DecidableEq, Repr

/-- What `initialize` may raise: a failure of the underlying resource
server initialization, or the aggregated `RouteConfigurationError`. -/
inductive InitError where
  | thrown (e : ThrownError)
  | routeConfigurationError (errors : List RouteValidationError)
  deriving DecidableEq, Repr

/-- Observable external calls made during request processing and
settlement, recorded in order so that theorems can speak about which
collaborator operations a code path invokes. -/
inductive Call where
  | buildRequirements
  | enrich
  | findMatching
  | verify
  | settle
  | unpaidBody
  deriving DecidableEq, Repr

/-- The bundle of external collaborators: the `x402ResourceServer`
(Resource Authority) operations, the sibling header codec module, and the
availability of the optional paywall module obtained via `require`.
Operations that may throw in JavaScript return `Except ThrownError`. -/
structure Env where
  buildPaymentRequirementsFromOptions :
    List PaymentOption → HTTPRequestContext → Except ThrownError (List PaymentRequirements)
  enrichExtensions : Ext → HTTPRequestContext → Except ThrownError Ext
  findMatchingRequirements :
    List PaymentRequirements → PaymentPayload → Except ThrownError (Option PaymentRequirements)
  verifyPayment : PaymentPayload → PaymentRequirements → Except ThrownError VerifyResult
  settlePayment : PaymentPayload → PaymentRequirements → Except ThrownError SettleResponse
  hasRegisteredScheme : String → String → Bool
  getSupportedKind : Nat → String → String → Option String
  resourceServerInit : Except ThrownError Unit
  decodePaymentSignatureHeader : String → Except ThrownError PaymentPayload
  encodePaymentRequiredHeader : PaymentRequired → String
  encodePaymentResponseHeader : SettleResponse → PaymentRequirements → String
  paywallModule : Option (PaymentRequired → Option PaywallConfig → String)

/-- The protocol version constant `x402Version` from the sibling module
(its concrete value is immaterial here; it is only forwarded to
`getSupportedKind`). -/
def x402Version : Nat := 2

/-! ### JavaScript string helpers -/

/-- Truthiness of a `string | undefined`: defined and non-empty. -/
def strTruthy : Option String → Bool
  | some s => !(s == "")
  | none => false

/-- `x || d` for `x : string | undefined`: JavaScript falls back on the
default when `x` is `undefined` or the empty string. -/
def jsOrStr (x : Option String) (d : String) : String :=
  match x with
  | some s => if s == "" then d else s
  | none => d

/-- ASCII `toUpperCase` (all strings this development compares are
ASCII). -/
def toUpperStr (s : String) : String := String.mk (s.toList.map Char.toUpper)

/-- Case-insensitive character comparison, modelling the regex `i` flag
(ASCII simple folding). -/
def charEqCI (a b : Char) : Bool := a.toLower == b.toLower

/-- Characters matched by the regex `\s` (ASCII subset; route patterns
use plain spaces): space (32) and the control range tab through carriage
return (9-13). -/
def isWS (c : Char) : Bool :=
  c.toNat == 32 || (9 ≤ c.toNat && c.toNat ≤ 13)

/-- `sub` occurs contiguously inside `l` (JavaScript
`String.prototype.includes`). -/
def listContainsSub (l sub : List Char) : Bool :=
  match l with
  | [] => sub.isEmpty
  | _ :: rest => sub.isPrefixOf l || listContainsSub rest sub

/-- JavaScript `s.includes(sub)`. -/
def strIncludes (s sub : String) : Bool := listContainsSub s.toList sub.toList

/-! ### `normalizePath`

The source normalizes a request path with
`path.split(/[?#]/)[0]`, `decodeURIComponent`, then three `replace`
calls: backslash to slash, collapse slash runs, strip trailing slashes
via `/(.+?)\/+$/`. `decodeURIComponent` throwing is caught and the
original path returned. Each step is modelled below. -/

/-- Value of a hex digit, else `none` (code points 48-57 are the
digits, 65-70 upper-case A-F, 97-102 lower-case a-f). -/
def hexDigitVal (c : Char) : Option Nat :=
  let n := c.toNat
  if 48 ≤ n ∧ n ≤ 57 then some (n - 48)
  else if 65 ≤ n ∧ n ≤ 70 then some (n - 55)
  else if 97 ≤ n ∧ n ≤ 102 then some (n - 87)
  else none

/-- Intermediate item of percent decoding: a pass-through character or a
raw decoded byte. -/
inductive DecItem where
  | ch (c : Char)
  | byte (b : Nat)
  deriving DecidableEq, Repr

/-- First pass of `decodeURIComponent`: turn each `%hh` escape into a raw
byte; a `%` not followed by two hex digits throws (`none`). -/
def percentDecode : List Char → Option (List DecItem)
  | [] => some []
  | c :: rest =>
    if c = '%' then
      match rest with
      | h1 :: h2 :: rest2 =>
        match hexDigitVal h1, hexDigitVal h2 with
        | some a, some b => (percentDecode rest2).map (DecItem.byte (16 * a + b) :: ·)
        | _, _ => none
      | _ => none
    else
      (percentDecode rest).map (DecItem.ch c :: ·)

/-- A UTF-8 continuation byte. -/
def contByte (b : Nat) : Prop := 0x80 ≤ b ∧ b ≤ 0xBF

instance (b : Nat) : Decidable (contByte b) := by
  unfold contByte
  infer_instance

/-- Second pass of `decodeURIComponent`: assemble percent-decoded bytes
into characters using strict UTF-8 (lone/overlong/surrogate/out-of-range
sequences throw, i.e. `none`), as the ECMAScript `Decode` algorithm
prescribes. -/
def utf8Assemble : List DecItem → Option (List Char)
  | [] => some []
  | DecItem.ch c :: rest => (utf8Assemble rest).map (c :: ·)
  | DecItem.byte b :: rest =>
    if b < 0x80 then (utf8Assemble rest).map (Char.ofNat b :: ·)
    else if 0xC2 ≤ b ∧ b ≤ 0xDF then
      match rest with
      | DecItem.byte b2 :: rest2 =>
        if contByte b2 then
          (utf8Assemble rest2).map (Char.ofNat ((b - 0xC0) * 64 + (b2 - 0x80)) :: ·)
        else none
      | _ => none
    else if 0xE0 ≤ b ∧ b ≤ 0xEF then
      match rest with
      | DecItem.byte b2 :: DecItem.byte b3 :: rest3 =>
        if contByte b2 ∧ contByte b3 then
          let v := (b - 0xE0) * 4096 + (b2 - 0x80) * 64 + (b3 - 0x80)
          if 0x800 ≤ v ∧ ¬ (0xD800 ≤ v ∧ v ≤ 0xDFFF) then
            (utf8Assemble rest3).map (Char.ofNat v :: ·)
          else none
        else none
      | _ => none
    else if 0xF0 ≤ b ∧ b ≤ 0xF4 then
      match rest with
      | DecItem.byte b2 :: DecItem.byte b3 :: DecItem.byte b4 :: rest4 =>
        if contByte b2 ∧ contByte b3 ∧ contByte b4 then
          let v := (b - 0xF0) * 262144 + (b2 - 0x80) * 4096 + (b3 - 0x80) * 64 + (b4 - 0x80)
          if 0x10000 ≤ v ∧ v ≤ 0x10FFFF then
            (utf8Assemble rest4).map (Char.ofNat v :: ·)
          else none
        else none
      | _ => none
    else none

/-- `decodeURIComponent` on a character list; `none` models a thrown
`URIError`. -/
def decodeURIComponentChars (l : List Char) : Option (List Char) :=
  (percentDecode l).bind utf8Assemble

/-- `path.split(/[?#]/)[0]`: the prefix before the first `?` or `#`. -/
def dropQueryFragment (l : List Char) : List Char :=
  l.takeWhile fun c => !(c == '?' || c == '#')

/-- `.replace(/\\/g, "/")`. -/
def replaceBackslashes (l : List Char) : List Char :=
  l.map fun c => if c = '\\' then '/' else c

/-- `.replace(/\/+/g, "/")`: collapse runs of slashes. -/
def collapseSlashes : List Char → List Char
  | [] => []
  | [c] => [c]
  | a :: b :: rest =>
    if a = '/' ∧ b = '/' then collapseSlashes (b :: rest)
    else a :: collapseSlashes (b :: rest)

/-- ECMAScript LineTerminator characters, which the regex `.` (without
the `s` flag) does not match: LF (10), CR (13), LINE SEPARATOR (8232)
and PARAGRAPH SEPARATOR (8233). -/
def isLineTerminator (c : Char) : Bool :=
  c.toNat == 10 || c.toNat == 13 || c.toNat == 8232 || c.toNat == 8233

/-- Whether a list ends in a line terminator. -/
def lastIsLineTerminator (l : List Char) : Bool :=
  match l.getLast? with
  | some c => isLineTerminator c
  | none => false

def trailingSlashRun (s : List Char) : List Char :=
  s.reverse.takeWhile (· == '/')

def stripBody (s : List Char) : List Char :=
  (s.reverse.dropWhile (· == '/')).reverse

/-- `.replace(/(.+?)\/+$/, "$1")`. With leftmost-then-shortest match
semantics and `.` not matching line terminators (LF, CR, U+2028, U+2029)
this amounts to: writing the input as `B ++ slashes` with a maximal
trailing slash run, if `B` is non-empty and does not end in a line
terminator the whole trailing run is dropped; if `B` is empty or ends
in a line terminator the match can only start inside the slash run,
leaving a single slash when the run has length at least two; a lone
trailing slash after such a `B` (including the root path `/`) does not
match and the input is returned unchanged. -/
def stripTrailingSlashes (s : List Char) : List Char :=
  if (trailingSlashRun s).length = 0 then s
  else if stripBody s ≠ [] ∧ lastIsLineTerminator (stripBody s) = false then
    stripBody s
  else if 2 ≤ (trailingSlashRun s).length then stripBody s ++ ['/']
  else s

/-- Whether a character list contains two adjacent slashes (collapsed
paths have none). -/
def hasDoubleSlash : List Char → Bool
  | a :: b :: rest => (a == '/' && b == '/') || hasDoubleSlash (b :: rest)
  | _ => false

/-- `normalizePath` on character lists: strip query/fragment,
percent-decode (returning the whole original path if decoding throws),
canonicalize backslashes, collapse slash runs, strip trailing slashes. -/
def normalizePathChars (path : List Char) : List Char :=
  match decodeURIComponentChars (dropQueryFragment path) with
  | none => path
  | some decodedPath =>
    stripTrailingSlashes (collapseSlashes (replaceBackslashes decodedPath))

/-- The server's `normalizePath`. -/
def normalizePath (path : String) : String :=
  String.mk (normalizePathChars path.toList)

/-! ### Route pattern compilation (`parseRoutePattern`)

The source builds a `RegExp` from the declared pattern by escaping the
metacharacters `$()+.?^\x7b|\x7d`, replacing `*` with `.*?`, replacing
`[name]` (per `\[([^\]]+)\]`) with `[^/]+`, escaping slashes, anchoring
both ends, and compiling with the `i` flag. The escapes are semantically
literal characters, so the compiled matcher is modelled as a token list:
literal characters (compared case-insensitively), `*` wildcards (lazy
runs of characters other than line terminators), `[...]` parameters
(non-empty runs of non-separator characters), and the never-matching empty class produced by
a literal `[]`. -/

inductive Tok where
  | lit (c : Char)
  | star
  | param
  | neverTok
  deriving DecidableEq, Repr

/-- Tokenize the path part of a route pattern. Fuel-based so that the
bracket lookahead keeps the recursion structural; `fuel` is at least the
list length plus one at every call. -/
def tokenizeFuel : Nat → List Char → List Tok
  | 0, _ => []
  | _ + 1, [] => []
  | fuel + 1, c :: rest =>
    if c = '*' then Tok.star :: tokenizeFuel fuel rest
    else if c = '[' then
      let content := rest.takeWhile (· ≠ ']')
      if content.length = 0 then
        match rest with
        | ']' :: rest2 => Tok.neverTok :: tokenizeFuel fuel rest2
        | _ => Tok.lit '[' :: tokenizeFuel fuel rest
      else if content.length < rest.length then
        Tok.param :: tokenizeFuel fuel (rest.drop (content.length + 1))
      else Tok.lit '[' :: tokenizeFuel fuel rest
    else Tok.lit c :: tokenizeFuel fuel rest

def tokenize (l : List Char) : List Tok := tokenizeFuel (l.length + 1) l

/-- Match a token list against a character list, anchored at both ends:
literals case-insensitively (`i` flag), `.*?` as any run of characters
other than line terminators, `[^/]+` as a non-empty run of non-slash
characters. Fueled
backtracking; `regexMatch` supplies sufficient fuel. -/
def regexMatchFuel : Nat → List Tok → List Char → Bool
  | 0, _, _ => false
  | _ + 1, [], [] => true
  | _ + 1, [], _ :: _ => false
  | _ + 1, Tok.lit _ :: _, [] => false
  | fuel + 1, Tok.lit c :: ts, x :: xs => charEqCI c x && regexMatchFuel fuel ts xs
  | _ + 1, Tok.neverTok :: _, _ => false
  | fuel + 1, Tok.star :: ts, xs =>
    regexMatchFuel fuel ts xs ||
      (match xs with
       | [] => false
       | x :: xs2 => !isLineTerminator x && regexMatchFuel fuel (Tok.star :: ts) xs2)
  | fuel + 1, Tok.param :: ts, xs =>
    match xs with
    | [] => false
    | x :: xs2 =>
      !(x == '/') &&
        (regexMatchFuel fuel ts xs2 || regexMatchFuel fuel (Tok.param :: ts) xs2)

def regexMatch (toks : List Tok) (chars : List Char) : Bool :=
  regexMatchFuel (toks.length + chars.length + 1) toks chars

/-- `pattern.split(/\s+/)`: split on maximal whitespace runs, with an
empty leading element when the pattern starts with whitespace and an
empty trailing element when it ends with one. -/
def splitWSAux : List Char → List Char → List (List Char)
  | [], acc => [acc.reverse]
  | c :: rest, acc =>
    if isWS c then
      match rest with
      | [] => [acc.reverse, []]
      | d :: _ =>
        if isWS d then splitWSAux rest acc
        else acc.reverse :: splitWSAux rest []
    else splitWSAux rest (c :: acc)

def splitWS (l : List Char) : List (List Char) := splitWSAux l []

/-- Parsed route pattern: upper-cased verb and compiled matcher. -/
structure ParsedPattern where
  verb : String
  regex : String → Bool

/-- `parseRoutePattern`: `"VERB /path"` when the pattern contains a
space, otherwise verb `*` and the whole pattern as path; the verb is
upper-cased and the path compiled to an anchored case-insensitive
matcher. -/
def parseRoutePattern (pattern : String) : ParsedPattern :=
  let cs := pattern.toList
  let vp : List Char × List Char :=
    if cs.contains ' ' then
      match splitWS cs with
      | v :: p :: _ => (v, p)
      | [v] => (v, [])
      | [] => ([], [])
    else (['*'], cs)
  let toks := tokenize vp.2
  { verb := String.mk (vp.1.map Char.toUpper)
    regex := fun s => regexMatch toks s.toList }

/-- Normalize the route table to ordered pattern/config entries, as both
the constructor and `validateRouteConfiguration` do: a value without an
`accepts` field is a pattern table, otherwise it is a single config
registered under the pattern `*`. -/
def normalizedRouteEntries : RoutesConfig → List (String × RouteConfig)
  | RoutesConfig.single c => [("*", c)]
  | RoutesConfig.table es => es

/-- The constructor's compilation loop: compile each entry in insertion
order. -/
def compileRoutes (routes : RoutesConfig) : List CompiledRoute :=
  (normalizedRouteEntries routes).map fun pc =>
    let parsed := parseRoutePattern pc.1
    { verb := parsed.verb, regex := parsed.regex, config := pc.2 }

/-! ### Server operations -/

/-- `normalizePaymentOptions`: `Array.isArray(accepts) ? accepts :
[accepts]`. -/
def normalizePaymentOptions (routeConfig : RouteConfig) : List PaymentOption :=
  match routeConfig.accepts with
  | Sum.inl single => [single]
  | Sum.inr arr => arr

/-- `getRouteConfig`: the config of the first compiled route whose
matcher accepts the normalized path and whose verb is `*` or equals the
upper-cased method. -/
def getRouteConfig (compiledRoutes : List CompiledRoute) (path method : String) :
    Option RouteConfig :=
  let normalizedPath := normalizePath path
  let upperMethod := toUpperStr method
  (compiledRoutes.find? fun route =>
      route.regex normalizedPath && (route.verb == "*" || route.verb == upperMethod)).map
    (fun r => r.config)

/-- The matching predicate of `getRouteConfig`, named for the theorems. -/
def routeAccepts (route : CompiledRoute) (path method : String) : Bool :=
  route.regex (normalizePath path) && (route.verb == "*" || route.verb == toUpperStr method)

/-- `requiresPayment`. -/
def requiresPayment (compiledRoutes : List CompiledRoute)
    (context : HTTPRequestContext) : Bool :=
  (getRouteConfig compiledRoutes context.path context.method).isSome

/-- The header value `adapter.getHeader("payment-signature") ||
adapter.getHeader("PAYMENT-SIGNATURE")` (JavaScript `||`, so an empty
first header falls through to the second). -/
def rawPaymentHeader (adapter : HTTPAdapter) : Option String :=
  let h1 := adapter.getHeader ("payment-signature")
  if strTruthy h1 then h1 else adapter.getHeader ("PAYMENT-SIGNATURE")

/-- `extractPayment`: read the proof header; when truthy, try to decode
it, and on a decoding failure log and fall through to `null` (decoding
failure is never propagated). -/
def extractPayment (env : Env) (adapter : HTTPAdapter) : Option PaymentPayload :=
  let header := rawPaymentHeader adapter
  if strTruthy header then
    match header with
    | some h =>
      match env.decodePaymentSignatureHeader h with
      | Except.ok p => some p
      | Except.error _ => none
    | none => none
  else none

/-- `isWebBrowser`: accept header contains `text/html` and user agent
contains `Mozilla`. -/
def isWebBrowser (adapter : HTTPAdapter) : Bool :=
  strIncludes adapter.accept ("text/html") && strIncludes adapter.userAgent ("Mozilla")

/-- The inline fallback paywall page of `generatePaywallHTML`
(abbreviated: the full template's styling and display-amount formatting
are immaterial to every claim; it still embeds the machine-readable
descriptor via the encoder for programmatic recovery). -/
def fallbackPaywallHtml (env : Env) (paymentRequired : PaymentRequired) : String :=
  "<!DOCTYPE html><html><head><title>Payment Required</title></head><body>" ++
    "<h1>Payment Required</h1><div id=\"payment-widget\" data-requirements='" ++
    env.encodePaymentRequiredHeader paymentRequired ++ "'></div></body></html>"

/-- `generatePaywallHTML`: custom HTML verbatim if supplied, else a
registered paywall provider, else the optional paywall module obtained
via `require` when available, else the inline fallback page. -/
def generatePaywallHTML (env : Env)
    (paywallProvider : Option (PaymentRequired → Option PaywallConfig → String))
    (paymentRequired : PaymentRequired) (paywallConfig : Option PaywallConfig)
    (customHtml : Option String) : String :=
  match customHtml with
  | some h => h
  | none =>
    match paywallProvider with
    | some provider => provider paymentRequired paywallConfig
    | none =>
      match env.paywallModule with
      | some m => m paymentRequired paywallConfig
      | none => fallbackPaywallHtml env paymentRequired

/-- `createHTTPPaymentRequiredResponse`: the v2 header carrying the
encoded descriptor. -/
def createHTTPPaymentRequiredResponse (env : Env) (paymentRequired : PaymentRequired) :
    List (String × String) :=
  [("PAYMENT-REQUIRED", env.encodePaymentRequiredHeader paymentRequired)]

/-- `createHTTPResponse`: a browser gets a 402 HTML paywall; everyone
else gets a 402 whose headers carry the encoded descriptor, with content
type and body from the unpaid-response callback result when present and
`application/json` with an empty object otherwise. -/
def createHTTPResponse (env : Env)
    (paywallProvider : Option (PaymentRequired → Option PaywallConfig → String))
    (paymentRequired : PaymentRequired) (isBrowser : Bool)
    (paywallConfig : Option PaywallConfig) (customHtml : Option String)
    (unpaidResponse : Option UnpaidResponseResult) : HTTPResponseInstructions :=
  if isBrowser then
    { status := 402
      headers := [("Content-Type", "text/html")]
      body := some (Unknown.str
        (generatePaywallHTML env paywallProvider paymentRequired paywallConfig customHtml))
      isHtml := some true }
  else
    let contentType :=
      match unpaidResponse with
      | some u => u.contentType
      | none => "application/json"
    let body :=
      match unpaidResponse with
      | some u => u.body
      | none => Unknown.emptyObj
    { status := 402
      headers := ("Content-Type", contentType) :: createHTTPPaymentRequiredResponse env paymentRequired
      body := some body
      isHtml := none }

/-- The resource info assembled at the top of `processHTTPRequest`
(JavaScript `||` defaults). -/
def resourceInfoFor (routeConfig : RouteConfig) (context : HTTPRequestContext) :
    ResourceInfo :=
  { url := jsOrStr routeConfig.resource context.adapter.url
    description := jsOrStr routeConfig.description ("")
    mimeType := jsOrStr routeConfig.mimeType ("") }

/-- The extension-enrichment step: `if (extensions) extensions =
enrichExtensions(extensions, context)`. The call happens (and may throw)
only when the route declares extensions. -/
def extStep (env : Env) (extensions : Option Ext) (context : HTTPRequestContext) :
    Except ThrownError (Option Ext) × List Call :=
  match extensions with
  | none => (Except.ok none, [])
  | some e =>
    match env.enrichExtensions e context with
    | Except.ok e2 => (Except.ok (some e2), [Call.enrich])
    | Except.error err => (Except.error err, [Call.enrich])

/-- The unpaid-response step: await the route's generator when present
(it may throw, and the call is not inside any try block). -/
def unpaidStep (routeConfig : RouteConfig) (context : HTTPRequestContext) :
    Except ThrownError (Option UnpaidResponseResult) × List Call :=
  match routeConfig.unpaidResponseBody with
  | none => (Except.ok none, [])
  | some f =>
    match f context with
    | Except.ok u => (Except.ok (some u), [Call.unpaidBody])
    | Except.error e => (Except.error e, [Call.unpaidBody])

/-- The catch-block reason: `error instanceof Error ? error.message :
"Payment verification failed"`. -/
def verificationCatchReason : ThrownError → String
  | ThrownError.settleErr _ m _ _ _ => m
  | ThrownError.jsError m => m
  | ThrownError.nonError => "Payment verification failed"

/-- `processHTTPRequest`, with every collaborator call that may throw
made explicit (`Except.error` in the first component models an exception
escaping to the caller; the try block of the source covers exactly the
requirement-matching and verification calls) and the external calls
recorded in order in the second component. The source's `console.log`
diagnostics have no observable effect here and are dropped. -/
def processHTTPRequest (env : Env) (compiledRoutes : List CompiledRoute)
    (paywallProvider : Option (PaymentRequired → Option PaywallConfig → String))
    (context : HTTPRequestContext) (paywallConfig : Option PaywallConfig) :
    Except ThrownError HTTPProcessResult × List Call :=
  match getRouteConfig compiledRoutes context.path context.method with
  | none => (Except.ok HTTPProcessResult.noPaymentRequired, [])
  | some routeConfig =>
    let paymentOptions := normalizePaymentOptions routeConfig
    let paymentPayload := extractPayment env context.adapter
    let resourceInfo := resourceInfoFor routeConfig context
    match env.buildPaymentRequirementsFromOptions paymentOptions context with
    | Except.error e => (Except.error e, [Call.buildRequirements])
    | Except.ok requirements =>
      match extStep env routeConfig.extensions context with
      | (Except.error e, elog) => (Except.error e, Call.buildRequirements :: elog)
      | (Except.ok extensions, elog) =>
        let log1 := Call.buildRequirements :: elog
        let paymentRequired := createPaymentRequiredResponse requirements resourceInfo
          (if paymentPayload.isNone then some ("Payment required") else none) extensions
        match paymentPayload with
        | none =>
          match unpaidStep routeConfig context with
          | (Except.error e, ulog) => (Except.error e, log1 ++ ulog)
          | (Except.ok unpaidBody, ulog) =>
            (Except.ok (HTTPProcessResult.paymentError
                (createHTTPResponse env paywallProvider paymentRequired
                  (isWebBrowser context.adapter) paywallConfig
                  routeConfig.customPaywallHtml unpaidBody)),
              log1 ++ ulog)
        | some pp =>
          match env.findMatchingRequirements paymentRequired.accepts pp with
          | Except.error e =>
            (Except.ok (HTTPProcessResult.paymentError
                (createHTTPResponse env paywallProvider
                  (createPaymentRequiredResponse requirements resourceInfo
                    (some (verificationCatchReason e)) routeConfig.extensions)
                  false paywallConfig none none)),
              log1 ++ [Call.findMatching])
          | Except.ok none =>
            (Except.ok (HTTPProcessResult.paymentError
                (createHTTPResponse env paywallProvider
                  (createPaymentRequiredResponse requirements resourceInfo
                    (some ("No matching payment requirements")) routeConfig.extensions)
                  false paywallConfig none none)),
              log1 ++ [Call.findMatching])
          | Except.ok (some matchingRequirements) =>
            match env.verifyPayment pp matchingRequirements with
            | Except.error e =>
              (Except.ok (HTTPProcessResult.paymentError
                  (createHTTPResponse env paywallProvider
                    (createPaymentRequiredResponse requirements resourceInfo
                      (some (verificationCatchReason e)) routeConfig.extensions)
                    false paywallConfig none none)),
                log1 ++ [Call.findMatching, Call.verify])
            | Except.ok verifyResult =>
              if verifyResult.isValid then
                (Except.ok (HTTPProcessResult.paymentVerified pp matchingRequirements),
                  log1 ++ [Call.findMatching, Call.verify])
              else
                (Except.ok (HTTPProcessResult.paymentError
                    (createHTTPResponse env paywallProvider
                      (createPaymentRequiredResponse requirements resourceInfo
                        verifyResult.invalidReason routeConfig.extensions)
                      false paywallConfig none none)),
                  log1 ++ [Call.findMatching, Call.verify])

/-- `createSettlementHeaders`: the settlement receipt header encoding the
settle response merged with the fulfilled requirement. -/
def createSettlementHeaders (env : Env) (settleResponse : SettleResponse)
    (requirements : PaymentRequirements) : List (String × String) :=
  [("PAYMENT-RESPONSE", env.encodePaymentResponseHeader settleResponse requirements)]

/-- `processSettlement`: settle, and fold every failure shape (reported
or thrown) into a structured failure result; never throws. -/
def processSettlement (env : Env) (paymentPayload : PaymentPayload)
    (requirements : PaymentRequirements) : ProcessSettleResult × List Call :=
  match env.settlePayment paymentPayload requirements with
  | Except.ok settleResponse =>
    if !settleResponse.success then
      (ProcessSettleResult.failure
          { errorReason := jsOrStr settleResponse.errorReason ("Settlement failed")
            payer := settleResponse.payer
            network := settleResponse.network
            transaction := settleResponse.transaction },
        [Call.settle])
    else
      (ProcessSettleResult.success { settleResponse with success := true }
          (createSettlementHeaders env settleResponse requirements) requirements,
        [Call.settle])
  | Except.error e =>
    match e with
    | ThrownError.settleErr errorReason message payer network transaction =>
      (ProcessSettleResult.failure
          { errorReason := jsOrStr errorReason message
            payer := some payer
            network := some network
            transaction := some transaction },
        [Call.settle])
    | ThrownError.jsError message =>
      (ProcessSettleResult.failure
          { errorReason := message
            payer := none
            network := some requirements.network
            transaction := some ("") },
        [Call.settle])
    | ThrownError.nonError =>
      (ProcessSettleResult.failure
          { errorReason := "Settlement failed"
            payer := none
            network := some requirements.network
            transaction := some ("") },
        [Call.settle])

/-! ### Startup validation -/

def missingSchemeMessage (pattern : String) (option : PaymentOption) : String :=
  "Route \"" ++ pattern ++ "\": No scheme implementation registered for \"" ++
    option.scheme ++ "\" on network \"" ++ option.network ++ "\""

def missingFacilitatorMessage (pattern : String) (option : PaymentOption) : String :=
  "Route \"" ++ pattern ++ "\": Facilitator does not support scheme \"" ++
    option.scheme ++ "\" on network \"" ++ option.network ++ "\""

def missingSchemeError (pattern : String) (option : PaymentOption) :
    RouteValidationError :=
  { routePattern := pattern, scheme := option.scheme, network := option.network
    reason := ValidationReason.missing_scheme
    message := missingSchemeMessage pattern option }

def missingFacilitatorError (pattern : String) (option : PaymentOption) :
    RouteValidationError :=
  { routePattern := pattern, scheme := option.scheme, network := option.network
    reason := ValidationReason.missing_facilitator
    message := missingFacilitatorMessage pattern option }

/-- The per-option body of the validation loop: an unregistered scheme
yields a `missing_scheme` error and `continue`s past the facilitator
check; a registered scheme the facilitator does not support yields a
`missing_facilitator` error; otherwise nothing. -/
def optionValidationError (env : Env) (pattern : String) (option : PaymentOption) :
    Option RouteValidationError :=
  if !env.hasRegisteredScheme option.network option.scheme then
    some (missingSchemeError pattern option)
  else if (env.getSupportedKind x402Version option.network option.scheme).isNone then
    some (missingFacilitatorError pattern option)
  else none

/-- `validateRouteConfiguration`: walk every route and every option,
collecting all errors (no short-circuit). -/
def validateRouteConfiguration (env : Env) (routesConfig : RoutesConfig) :
    List RouteValidationError :=
  (normalizedRouteEntries routesConfig).flatMap fun pc =>
    (normalizePaymentOptions pc.2).filterMap fun option =>
      optionValidationError env pc.1 option

/-- `initialize`: initialize the resource server, then validate the
route configuration and throw a single aggregated
`RouteConfigurationError` when any validation error exists. -/
def initHTTPResourceServer (env : Env) (routesConfig : RoutesConfig) :
    Except InitError Unit :=
  match env.resourceServerInit with
  | Except.error e => Except.error (InitError.thrown e)
  | Except.ok _ =>
    let errors := validateRouteConfiguration env routesConfig
    if 0 < errors.length then Except.error (InitError.routeConfigurationError errors)
    else Except.ok ()

/-! ### Concrete fixtures used by witnesses and counterexamples -/

def sampleOption : PaymentOption :=
  { scheme := "exact"
    payTo := PayToField.static ("0xpayee")
    price := PriceField.static { amount := "100", asset := "0xasset" }
    network := "eip155:1" }

def sampleRequirement : PaymentRequirements :=
  { scheme := "exact", network := "eip155:1", payTo := "0xpayee", amount := "100" }

def samplePayload : PaymentPayload := { raw := "sig-header" }

/-- A benign environment: every collaborator call returns. -/
def sampleEnv : Env :=
  { buildPaymentRequirementsFromOptions := fun _ _ => Except.ok [sampleRequirement]
    enrichExtensions := fun e _ => Except.ok e
    findMatchingRequirements := fun reqs _ => Except.ok reqs.head?
    verifyPayment := fun _ _ => Except.ok { isValid := true, invalidReason := none }
    settlePayment := fun _ _ => Except.ok { success := true, transaction := some ("0xtx") }
    hasRegisteredScheme := fun _ _ => true
    getSupportedKind := fun _ _ _ => some ("kind")
    resourceServerInit := Except.ok ()
    decodePaymentSignatureHeader := fun s => Except.ok { raw := s }
    encodePaymentRequiredHeader := fun _ => "encoded-payment-required"
    encodePaymentResponseHeader := fun _ _ => "encoded-payment-response"
    paywallModule := none }

def sampleAdapterNoProof : HTTPAdapter :=
  { getHeader := fun _ => none
    method := "GET", path := "/a", url := "https://host/a"
    accept := "application/json", userAgent := "curl/8" }

def sampleAdapterWithProof : HTTPAdapter :=
  { getHeader := fun name => if name == "payment-signature" then some ("sig-header") else none
    method := "GET", path := "/a", url := "https://host/a"
    accept := "application/json", userAgent := "curl/8" }

def sampleBrowserAdapter : HTTPAdapter :=
  { getHeader := fun _ => none
    method := "GET", path := "/a", url := "https://host/a"
    accept := "text/html,application/xhtml+xml", userAgent := "Mozilla/5.0" }

def sampleConfig : RouteConfig := { accepts := Sum.inl sampleOption }

def cfgA : RouteConfig := { accepts := Sum.inl sampleOption, description := some ("A") }

def cfgB : RouteConfig := { accepts := Sum.inl sampleOption, description := some ("B") }

/-- Two declared patterns that both match `GET /a`. -/
def c1Table : RoutesConfig := RoutesConfig.table [("GET /a", cfgA), ("/a", cfgB)]

def ctxA : HTTPRequestContext :=
  { adapter := sampleAdapterNoProof, path := "/a", method := "GET" }

def ctxAProof : HTTPRequestContext :=
  { adapter := sampleAdapterWithProof, path := "/a", method := "GET" }

/-- A route table gating every path. -/
def anyRouteTable : RoutesConfig := RoutesConfig.table [("*", sampleConfig)]

/-- An environment whose requirement builder throws. -/
def envBoom : Env :=
  { sampleEnv with
    buildPaymentRequirementsFromOptions := fun _ _ =>
      Except.error (ThrownError.jsError ("boom")) }

def cfg9 : RouteConfig := { accepts := Sum.inl sampleOption }

def emptyAcceptsConfig : RouteConfig := { accepts := Sum.inr [] }

def optBadScheme : PaymentOption := { sampleOption with scheme := "bad", network := "n1" }

def optNoFacil : PaymentOption := { sampleOption with scheme := "s2", network := "n1" }

def optGood : PaymentOption := { sampleOption with scheme := "s1", network := "n1" }

/-- An environment in which scheme `bad` is unregistered and scheme `s2`
lacks facilitator support. -/
def env7 : Env :=
  { sampleEnv with
    hasRegisteredScheme := fun _ s => !(s == "bad")
    getSupportedKind := fun _ _ s => if s == "s2" then none else some ("kind") }

/-- Two routes with three options carrying one missing-scheme and one
missing-facilitator violation. -/
def routes7 : RoutesConfig :=
  RoutesConfig.table
    [("/a", { accepts := Sum.inl optBadScheme }),
     ("/b", { accepts := Sum.inr [optNoFacil, optGood] })]

/-- Whether request processing completed without an exception escaping
(`Except.ok`). -/
def exceptIsOk : Except ThrownError HTTPProcessResult → Bool
  | Except.ok _ => true
  | Except.error _ => false

/-- A concrete payment-required descriptor for witnesses. -/
def prW : PaymentRequired :=
  { accepts := [sampleRequirement]
    resource := { url := "https://host/a", description := "", mimeType := "" }
    error := none
    extensions := none }

/-! ### Helper lemmas -/

/-- `find?` returns the element at the first index satisfying the
predicate. -/
theorem find?_eq_of_first {α : Type} (p : α → Bool) :
    ∀ (l : List α) (i : Nat) (hi : i < l.length),
      p (l.get ⟨i, hi⟩) = true →
      (∀ (j : Nat) (hj : j < l.length), j < i → p (l.get ⟨j, hj⟩) = false) →
      l.find? p = some (l.get ⟨i, hi⟩) := by
  intro l
  induction l with
  | nil => intro i hi; simp at hi
  | cons a t ih =>
    intro i hi hp hfirst
    cases i with
    | zero =>
      simp only [List.get] at hp ⊢
      rw [List.find?_cons_of_pos _ hp]
    | succ n =>
      have ha : p a = false := by
        have := hfirst 0 (by simp) (Nat.succ_pos n)
        simpa using this
      rw [List.find?_cons_of_neg _ (by simp [ha])]
      have hn : n < t.length := by simpa using hi
      have := ih n hn (by simpa using hp) ?_
      · simpa using this
      · intro j hj hlt
        have := hfirst (j + 1) (by simpa using Nat.succ_lt_succ hj) (Nat.succ_lt_succ hlt)
        simpa using this

/-- `getRouteConfig` is first-match search with the `routeAccepts`
predicate. -/
theorem getRouteConfig_eq_find (routes : List CompiledRoute) (path method : String) :
    getRouteConfig routes path method =
      (routes.find? fun r => routeAccepts r path method).map (fun r => r.config) := rfl

/-- Every response composed by `createHTTPResponse` has status 402. -/
theorem createHTTPResponse_status (env : Env)
    (pw : Option (PaymentRequired → Option PaywallConfig → String))
    (pr : PaymentRequired) (isBrowser : Bool) (pcfg : Option PaywallConfig)
    (customHtml : Option String) (unpaid : Option UnpaidResponseResult) :
    (createHTTPResponse env pw pr isBrowser pcfg customHtml unpaid).status = 402 := by
  unfold createHTTPResponse
  cases isBrowser <;> simp

/-! ### C1 -/

/-- C1: for every route table and request, route lookup is
first-match-wins over the compiled routes in insertion order (a route
matches when its matcher accepts the normalized path and its verb is `*`
or equals the upper-cased method); when no compiled route matches,
`getRouteConfig` is `none` and `processHTTPRequest` passes through with
the no-payment-required result; and compilation preserves the declared
entries' order and configs. -/
theorem c1_first_match_wins (env : Env)
    (pw : Option (PaymentRequired → Option PaywallConfig → String))
    (pcfg : Option PaywallConfig) (rcfg : RoutesConfig) (ctx : HTTPRequestContext) :
    (∀ (i : Nat) (hi : i < (compileRoutes rcfg).length),
        routeAccepts ((compileRoutes rcfg).get ⟨i, hi⟩) ctx.path ctx.method = true →
        (∀ (j : Nat) (hj : j < (compileRoutes rcfg).length), j < i →
          routeAccepts ((compileRoutes rcfg).get ⟨j, hj⟩) ctx.path ctx.method = false) →
        getRouteConfig (compileRoutes rcfg) ctx.path ctx.method =
          some ((compileRoutes rcfg).get ⟨i, hi⟩).config) ∧
    ((∀ r ∈ compileRoutes rcfg, routeAccepts r ctx.path ctx.method = false) →
        getRouteConfig (compileRoutes rcfg) ctx.path ctx.method = none ∧
        processHTTPRequest env (compileRoutes rcfg) pw ctx pcfg =
          (Except.ok HTTPProcessResult.noPaymentRequired, [])) ∧
    ((compileRoutes rcfg).length = (normalizedRouteEntries rcfg).length) ∧
    (∀ (i : Nat) (h1 : i < (compileRoutes rcfg).length)
        (h2 : i < (normalizedRouteEntries rcfg).length),
        ((compileRoutes rcfg).get ⟨i, h1⟩).config =
          ((normalizedRouteEntries rcfg).get ⟨i, h2⟩).2) := by
  refine ⟨?_, ?_, ?_, ?_⟩
  · intro i hi hp hfirst
    rw [getRouteConfig_eq_find,
      find?_eq_of_first (fun r => routeAccepts r ctx.path ctx.method) _ i hi hp hfirst]
    rfl
  · intro hall
    have hnone : getRouteConfig (compileRoutes rcfg) ctx.path ctx.method = none := by
      rw [getRouteConfig_eq_find, List.find?_eq_none.mpr ?_]
      · rfl
      · intro x hx
        simp [hall x hx]
    refine ⟨hnone, ?_⟩
    unfold processHTTPRequest
    rw [hnone]
  · simp [compileRoutes]
  · intro i h1 h2
    simp [compileRoutes]

/-- C1 witness: with two declared patterns both matching `GET /a`, the
earlier-declared config is returned. -/
theorem c1_witness :
    getRouteConfig (compileRoutes c1Table) "/a" "GET" = some cfgA := by
  have h := (c1_first_match_wins sampleEnv none none c1Table ctxA).1 0 (by decide)
    (by decide) (fun j hj hlt => absurd hlt (Nat.not_lt_zero j))
  exact h

/-! ### C9 -/

/-- C9: `GET /api/*` matches a GET to `/api/anything/nested` and not a
POST to `/api/anything`; `/items/[id]` matches `/items/42` and not
`/items/42/sub`. -/
theorem c9_pattern_semantics :
    getRouteConfig (compileRoutes (RoutesConfig.table [("GET /api/*", cfg9)]))
        "/api/anything/nested" "GET" = some cfg9 ∧
    getRouteConfig (compileRoutes (RoutesConfig.table [("GET /api/*", cfg9)]))
        "/api/anything" "POST" = none ∧
    getRouteConfig (compileRoutes (RoutesConfig.table [("/items/[id]", cfg9)]))
        "/items/42" "GET" = some cfg9 ∧
    getRouteConfig (compileRoutes (RoutesConfig.table [("/items/[id]", cfg9)]))
        "/items/42/sub" "GET" = none :=
  ⟨rfl, rfl, rfl, rfl⟩

/-! ### C10 -/

/-- C10 counterexample: a route whose `accepts` field is the empty array
yields an EMPTY option list from `normalizePaymentOptions`, passes
startup validation with no errors, and request processing proceeds to
invoke the requirement builder as if the route offered options — the
claimed non-emptiness invariant does not hold in the code. -/
theorem c10_counterexample :
    normalizePaymentOptions emptyAcceptsConfig = [] ∧
    validateRouteConfiguration sampleEnv
      (RoutesConfig.table [("/x", emptyAcceptsConfig)]) = [] ∧
    (processHTTPRequest sampleEnv
        (compileRoutes (RoutesConfig.table [("/x", emptyAcceptsConfig)])) none
        { adapter := sampleAdapterNoProof, path := "/x", method := "GET" } none).2 =
      [Call.buildRequirements] :=
  ⟨rfl, rfl, rfl⟩

/-- C10 amended: `normalizePaymentOptions` returns the `accepts` array
itself, or the singleton of a single option; its result is non-empty
whenever `accepts` is a single option or a non-empty array — but an
empty `accepts` array yields an empty option list and is not rejected. -/
theorem c10_amended_normalize (rc : RouteConfig) :
    (∀ o, rc.accepts = Sum.inl o → normalizePaymentOptions rc = [o]) ∧
    (∀ l, rc.accepts = Sum.inr l → normalizePaymentOptions rc = l) ∧
    (∀ o, rc.accepts = Sum.inl o → normalizePaymentOptions rc ≠ []) ∧
    (∀ l, rc.accepts = Sum.inr l → l ≠ [] → normalizePaymentOptions rc ≠ []) := by
  refine ⟨?_, ?_, ?_, ?_⟩
  · intro o h; simp [normalizePaymentOptions, h]
  · intro l h; simp [normalizePaymentOptions, h]
  · intro o h; simp [normalizePaymentOptions, h]
  · intro l h hl; simp [normalizePaymentOptions, h, hl]

/-- C10 witness: a single-option route yields the non-empty singleton. -/
theorem c10_witness :
    normalizePaymentOptions sampleConfig = [sampleOption] ∧
    normalizePaymentOptions sampleConfig ≠ [] :=
  ⟨(c10_amended_normalize sampleConfig).1 sampleOption rfl,
   (c10_amended_normalize sampleConfig).2.2.1 sampleOption rfl⟩

/-! ### C5 -/

/-- C5: `processSettlement` never throws and, for every behavior of the
settlement call: authority success yields a success result whose headers
carry the settlement receipt encoding the settle response with the same
requirement; an authority-reported failure yields a failure with the
authority's reason, defaulting to "Settlement failed" when absent or
empty; a thrown `SettleError` yields a failure preserving its reason
(falling back to its message), payer, network and transaction; any other
thrown error yields a generic failure with the requirement's network and
an empty transaction id. -/
theorem c5_settlement_contract (env : Env) (p : PaymentPayload)
    (req : PaymentRequirements) :
    (∀ s : SettleResponse, env.settlePayment p req = Except.ok s → s.success = true →
        processSettlement env p req =
          (ProcessSettleResult.success { s with success := true }
            [("PAYMENT-RESPONSE", env.encodePaymentResponseHeader s req)] req,
            [Call.settle])) ∧
    (∀ s : SettleResponse, env.settlePayment p req = Except.ok s → s.success = false →
        processSettlement env p req =
          (ProcessSettleResult.failure
            { errorReason := jsOrStr s.errorReason ("Settlement failed")
              payer := s.payer, network := s.network, transaction := s.transaction },
            [Call.settle])) ∧
    (∀ er m py nw tx,
        env.settlePayment p req = Except.error (ThrownError.settleErr er m py nw tx) →
        processSettlement env p req =
          (ProcessSettleResult.failure
            { errorReason := jsOrStr er m, payer := some py, network := some nw
              transaction := some tx },
            [Call.settle])) ∧
    (∀ m, env.settlePayment p req = Except.error (ThrownError.jsError m) →
        processSettlement env p req =
          (ProcessSettleResult.failure
            { errorReason := m, payer := none, network := some req.network
              transaction := some ("") },
            [Call.settle])) ∧
    (env.settlePayment p req = Except.error ThrownError.nonError →
        processSettlement env p req =
          (ProcessSettleResult.failure
            { errorReason := "Settlement failed", payer := none
              network := some req.network, transaction := some ("") },
            [Call.settle])) := by
  refine ⟨?_, ?_, ?_, ?_, ?_⟩
  · intro s hs hsucc
    simp [processSettlement, hs, hsucc, createSettlementHeaders]
  · intro s hs hsucc
    simp [processSettlement, hs, hsucc]
  · intro er m py nw tx hs
    simp [processSettlement, hs]
  · intro m hs
    simp [processSettlement, hs]
  · intro hs
    simp [processSettlement, hs]

/-- C5 witness: a successful settlement in the sample environment. -/
theorem c5_witness :
    processSettlement sampleEnv samplePayload sampleRequirement =
      (ProcessSettleResult.success { success := true, transaction := some ("0xtx") }
        [("PAYMENT-RESPONSE", "encoded-payment-response")] sampleRequirement,
        [Call.settle]) := by
  have h := (c5_settlement_contract sampleEnv samplePayload sampleRequirement).1
    { success := true, transaction := some ("0xtx") } rfl rfl
  exact h

/-! ### C6 -/

/-- C6: a request is classified as a browser iff its accept header
contains `text/html` and its user agent contains `Mozilla`; a browser
gets a 402 with `Content-Type: text/html` and the paywall HTML body; a
non-browser gets a 402 whose headers carry the encoded payment-required
descriptor, with content type and body from the unpaid-response callback
result when supplied and `application/json` with an empty object
otherwise. -/
theorem c6_response_composition (env : Env)
    (pw : Option (PaymentRequired → Option PaywallConfig → String))
    (pr : PaymentRequired) (pcfg : Option PaywallConfig)
    (customHtml : Option String) (unpaid : Option UnpaidResponseResult)
    (a : HTTPAdapter) :
    (isWebBrowser a = true ↔
      (strIncludes a.accept ("text/html") = true ∧
        strIncludes a.userAgent ("Mozilla") = true)) ∧
    (isWebBrowser a = true →
      createHTTPResponse env pw pr (isWebBrowser a) pcfg customHtml unpaid =
        { status := 402, headers := [("Content-Type", "text/html")]
          body := some (Unknown.str (generatePaywallHTML env pw pr pcfg customHtml))
          isHtml := some true }) ∧
    (isWebBrowser a = false → ∀ u, unpaid = some u →
      createHTTPResponse env pw pr (isWebBrowser a) pcfg customHtml unpaid =
        { status := 402
          headers := [("Content-Type", u.contentType),
            ("PAYMENT-REQUIRED", env.encodePaymentRequiredHeader pr)]
          body := some u.body, isHtml := none }) ∧
    (isWebBrowser a = false → unpaid = none →
      createHTTPResponse env pw pr (isWebBrowser a) pcfg customHtml unpaid =
        { status := 402
          headers := [("Content-Type", "application/json"),
            ("PAYMENT-REQUIRED", env.encodePaymentRequiredHeader pr)]
          body := some Unknown.emptyObj, isHtml := none }) := by
  refine ⟨?_, ?_, ?_, ?_⟩
  · simp [isWebBrowser, Bool.and_eq_true]
  · intro h
    rw [h]
    simp [createHTTPResponse]
  · intro h u hu
    rw [h, hu]
    simp [createHTTPResponse, createHTTPPaymentRequiredResponse]
  · intro h hu
    rw [h, hu]
    simp [createHTTPResponse, createHTTPPaymentRequiredResponse]

/-- C6 witness: a browser request receives the 402 HTML paywall. -/
theorem c6_witness :
    createHTTPResponse sampleEnv none prW (isWebBrowser sampleBrowserAdapter)
        none none none =
      { status := 402, headers := [("Content-Type", "text/html")]
        body := some (Unknown.str (generatePaywallHTML sampleEnv none prW none none))
        isHtml := some true } := by
  have h := (c6_response_composition sampleEnv none prW none none none
    sampleBrowserAdapter).2.1 (by decide)
  exact h

/-! ### C7 -/

/-- C7: startup validation walks all routes and all options without
short-circuiting — every missing-scheme violation and every
missing-facilitator violation found is listed in the returned error set —
and `initialize` raises a single aggregated configuration error carrying
exactly that set when it is non-empty, and raises nothing when there are
no violations. -/
theorem c7_aggregated_validation (env : Env) (routesConfig : RoutesConfig) :
    (∀ pc ∈ normalizedRouteEntries routesConfig,
      ∀ o ∈ normalizePaymentOptions pc.2,
        (env.hasRegisteredScheme o.network o.scheme = false →
          missingSchemeError pc.1 o ∈ validateRouteConfiguration env routesConfig) ∧
        (env.hasRegisteredScheme o.network o.scheme = true →
          env.getSupportedKind x402Version o.network o.scheme = none →
          missingFacilitatorError pc.1 o ∈ validateRouteConfiguration env routesConfig)) ∧
    (env.resourceServerInit = Except.ok () →
        validateRouteConfiguration env routesConfig ≠ [] →
        initHTTPResourceServer env routesConfig =
          Except.error (InitError.routeConfigurationError
            (validateRouteConfiguration env routesConfig))) ∧
    (env.resourceServerInit = Except.ok () →
        validateRouteConfiguration env routesConfig = [] →
        initHTTPResourceServer env routesConfig = Except.ok ()) := by
  refine ⟨?_, ?_, ?_⟩
  · intro pc hpc o ho
    constructor
    · intro hs
      unfold validateRouteConfiguration
      refine List.mem_flatMap.mpr ⟨pc, hpc, List.mem_filterMap.mpr ⟨o, ho, ?_⟩⟩
      simp [optionValidationError, hs]
    · intro hs hk
      unfold validateRouteConfiguration
      refine List.mem_flatMap.mpr ⟨pc, hpc, List.mem_filterMap.mpr ⟨o, ho, ?_⟩⟩
      simp [optionValidationError, hs, hk]
  · intro hinit hne
    unfold initHTTPResourceServer
    rw [hinit]
    simp [List.length_pos.mpr hne]
  · intro hinit he
    unfold initHTTPResourceServer
    rw [hinit]
    simp [he]

/-- C7 witness: both violation kinds, on different routes, are listed,
and initialization raises the aggregated error. -/
theorem c7_witness :
    missingSchemeError ("/a") optBadScheme ∈ validateRouteConfiguration env7 routes7 ∧
    missingFacilitatorError ("/b") optNoFacil ∈ validateRouteConfiguration env7 routes7 ∧
    initHTTPResourceServer env7 routes7 =
      Except.error (InitError.routeConfigurationError
        (validateRouteConfiguration env7 routes7)) := by
  have h := c7_aggregated_validation env7 routes7
  refine ⟨?_, ?_, ?_⟩
  · exact (h.1 ("/a", { accepts := Sum.inl optBadScheme })
      (by simp [routes7, normalizedRouteEntries]) optBadScheme
      (by simp [normalizePaymentOptions])).1 (by decide)
  · exact (h.1 ("/b", { accepts := Sum.inr [optNoFacil, optGood] })
      (by simp [routes7, normalizedRouteEntries]) optNoFacil
      (by simp [normalizePaymentOptions])).2 (by decide) (by decide)
  · exact h.2.1 rfl (by decide)

/-! ### C2 -/

/-- The extension-enrichment step never performs a settlement call. -/
theorem settle_not_mem_extStep (env : Env) (x : Option Ext)
    (ctx : HTTPRequestContext) : Call.settle ∉ (extStep env x ctx).2 := by
  cases x with
  | none => simp [extStep]
  | some e =>
    cases he : env.enrichExtensions e ctx with
    | ok v => simp [extStep, he]
    | error err => simp [extStep, he]

/-- C2: on a payment-gated route with a successfully decoded proof (and
returning collaborator calls): when the authority finds no matching
requirement, the result is payment-error with a 402 response whose
header-encoded descriptor re-offers the full requirement set with reason
"No matching payment requirements"; when the authority reports the
payment invalid, the result is payment-error with a 402 response whose
descriptor embeds the authority-supplied reason; when the payment
verifies as valid, the result is exactly one payment-verified carrying
that proof and the matched requirement, with no settlement call
issued. -/
theorem c2_verification_contract (env : Env) (routes : List CompiledRoute)
    (pw : Option (PaymentRequired → Option PaywallConfig → String))
    (ctx : HTTPRequestContext) (pcfg : Option PaywallConfig) (rc : RouteConfig)
    (pp : PaymentPayload) (reqs : List PaymentRequirements) (ext' : Option Ext)
    (elog : List Call)
    (hroute : getRouteConfig routes ctx.path ctx.method = some rc)
    (hpay : extractPayment env ctx.adapter = some pp)
    (hbuild : env.buildPaymentRequirementsFromOptions (normalizePaymentOptions rc) ctx =
      Except.ok reqs)
    (hext : extStep env rc.extensions ctx = (Except.ok ext', elog)) :
    (env.findMatchingRequirements reqs pp = Except.ok none →
        processHTTPRequest env routes pw ctx pcfg =
          (Except.ok (HTTPProcessResult.paymentError
              { status := 402
                headers := [("Content-Type", "application/json"),
                  ("PAYMENT-REQUIRED", env.encodePaymentRequiredHeader
                    (createPaymentRequiredResponse reqs (resourceInfoFor rc ctx)
                      (some ("No matching payment requirements")) rc.extensions))]
                body := some Unknown.emptyObj, isHtml := none }),
            (Call.buildRequirements :: elog) ++ [Call.findMatching])) ∧
    (∀ m reason, env.findMatchingRequirements reqs pp = Except.ok (some m) →
        env.verifyPayment pp m = Except.ok { isValid := false, invalidReason := reason } →
        processHTTPRequest env routes pw ctx pcfg =
          (Except.ok (HTTPProcessResult.paymentError
              { status := 402
                headers := [("Content-Type", "application/json"),
                  ("PAYMENT-REQUIRED", env.encodePaymentRequiredHeader
                    (createPaymentRequiredResponse reqs (resourceInfoFor rc ctx)
                      reason rc.extensions))]
                body := some Unknown.emptyObj, isHtml := none }),
            (Call.buildRequirements :: elog) ++ [Call.findMatching, Call.verify])) ∧
    (∀ m vr, env.findMatchingRequirements reqs pp = Except.ok (some m) →
        env.verifyPayment pp m = Except.ok vr → vr.isValid = true →
        processHTTPRequest env routes pw ctx pcfg =
          (Except.ok (HTTPProcessResult.paymentVerified pp m),
            (Call.buildRequirements :: elog) ++ [Call.findMatching, Call.verify]) ∧
        Call.settle ∉ (processHTTPRequest env routes pw ctx pcfg).2) := by
  refine ⟨?_, ?_, ?_⟩
  · intro hfind
    simp [processHTTPRequest, hroute, hpay, hbuild, hext, hfind,
      createPaymentRequiredResponse, createHTTPResponse,
      createHTTPPaymentRequiredResponse]
  · intro m reason hfind hverify
    simp [processHTTPRequest, hroute, hpay, hbuild, hext, hfind, hverify,
      createPaymentRequiredResponse, createHTTPResponse,
      createHTTPPaymentRequiredResponse]
  · intro m vr hfind hverify hvalid
    have heq : processHTTPRequest env routes pw ctx pcfg =
        (Except.ok (HTTPProcessResult.paymentVerified pp m),
          (Call.buildRequirements :: elog) ++ [Call.findMatching, Call.verify]) := by
      simp [processHTTPRequest, hroute, hpay, hbuild, hext, hfind, hverify, hvalid,
        createPaymentRequiredResponse]
    refine ⟨heq, ?_⟩
    rw [heq]
    have helog : Call.settle ∉ elog := by
      have h2 : (extStep env rc.extensions ctx).2 = elog := by rw [hext]
      rw [← h2]
      exact settle_not_mem_extStep env rc.extensions ctx
    simp [helog]

/-- C2 witness: a valid proof on a gated route yields payment-verified
with the matched requirement and no settlement call. -/
theorem c2_witness :
    (processHTTPRequest sampleEnv (compileRoutes anyRouteTable) none ctxAProof none).1 =
      Except.ok (HTTPProcessResult.paymentVerified samplePayload sampleRequirement) ∧
    Call.settle ∉
      (processHTTPRequest sampleEnv (compileRoutes anyRouteTable) none ctxAProof none).2 := by
  have h := (c2_verification_contract sampleEnv (compileRoutes anyRouteTable) none
    ctxAProof none sampleConfig samplePayload [sampleRequirement] none [] rfl rfl rfl rfl).2.2
    sampleRequirement { isValid := true, invalidReason := none } rfl rfl rfl
  exact ⟨by rw [h.1], h.2⟩

/-! ### C3 -/

/-- C3: on a payment-gated route, when the extracted payment is absent —
which happens exactly when the proof header is missing or empty, or when
it fails to decode (decoding failure is swallowed, not propagated) — the
processing result is never payment-verified, and (when the collaborator
calls return) it is payment-error carrying a 402-status response. -/
theorem c3_no_proof (env : Env) (routes : List CompiledRoute)
    (pw : Option (PaymentRequired → Option PaywallConfig → String))
    (ctx : HTTPRequestContext) (pcfg : Option PaywallConfig) (rc : RouteConfig)
    (hroute : getRouteConfig routes ctx.path ctx.method = some rc)
    (hpay : extractPayment env ctx.adapter = none) :
    (∀ (p : PaymentPayload) (m : PaymentRequirements),
        (processHTTPRequest env routes pw ctx pcfg).1 ≠
          Except.ok (HTTPProcessResult.paymentVerified p m)) ∧
    (∀ reqs ext' elog ub ulog,
        env.buildPaymentRequirementsFromOptions (normalizePaymentOptions rc) ctx =
          Except.ok reqs →
        extStep env rc.extensions ctx = (Except.ok ext', elog) →
        unpaidStep rc ctx = (Except.ok ub, ulog) →
        processHTTPRequest env routes pw ctx pcfg =
          (Except.ok (HTTPProcessResult.paymentError
              (createHTTPResponse env pw
                (createPaymentRequiredResponse reqs (resourceInfoFor rc ctx)
                  (some ("Payment required")) ext')
                (isWebBrowser ctx.adapter) pcfg rc.customPaywallHtml ub)),
            (Call.buildRequirements :: elog) ++ ulog) ∧
        (createHTTPResponse env pw
            (createPaymentRequiredResponse reqs (resourceInfoFor rc ctx)
              (some ("Payment required")) ext')
            (isWebBrowser ctx.adapter) pcfg rc.customPaywallHtml ub).status = 402) ∧
    (∀ a : HTTPAdapter,
        extractPayment env a = none ↔
          (strTruthy (rawPaymentHeader a) = false ∨
            ∃ s e, rawPaymentHeader a = some s ∧
              env.decodePaymentSignatureHeader s = Except.error e)) := by
  refine ⟨?_, ?_, ?_⟩
  · intro p m
    cases hb : env.buildPaymentRequirementsFromOptions (normalizePaymentOptions rc) ctx with
    | error e =>
      simp [processHTTPRequest, hroute, hb]
    | ok reqs =>
      rcases hx : extStep env rc.extensions ctx with ⟨er, elog⟩
      cases er with
      | error e =>
        simp [processHTTPRequest, hroute, hb, hx]
      | ok ext' =>
        rcases hu : unpaidStep rc ctx with ⟨ur, ulog⟩
        cases ur with
        | error e =>
          simp [processHTTPRequest, hroute, hb, hx, hpay, hu]
        | ok ub =>
          simp [processHTTPRequest, hroute, hb, hx, hpay, hu]
  · intro reqs ext' elog ub ulog hb hx hu
    constructor
    · simp [processHTTPRequest, hroute, hb, hx, hpay, hu]
    · exact createHTTPResponse_status env pw _ (isWebBrowser ctx.adapter) pcfg
        rc.customPaywallHtml ub
  · intro a
    unfold extractPayment
    cases hr : rawPaymentHeader a with
    | none =>
      simp [strTruthy]
    | some s =>
      by_cases hs : s = ""
      · subst hs
        simp [strTruthy]
      · cases hd : env.decodePaymentSignatureHeader s with
        | ok v =>
          simp [strTruthy, hs, hd]
        | error e =>
          simp [strTruthy, hs, hd]

/-- C3 witness: a gated route with no proof header yields payment-error
(and in particular not payment-verified) with a 402 response. -/
theorem c3_witness :
    (processHTTPRequest sampleEnv (compileRoutes anyRouteTable) none ctxA none).1 ≠
      Except.ok (HTTPProcessResult.paymentVerified samplePayload sampleRequirement) ∧
    (createHTTPResponse sampleEnv none
        (createPaymentRequiredResponse [sampleRequirement]
          (resourceInfoFor sampleConfig ctxA) (some ("Payment required")) none)
        (isWebBrowser ctxA.adapter) none sampleConfig.customPaywallHtml none).status =
      402 := by
  have h := c3_no_proof sampleEnv (compileRoutes anyRouteTable) none ctxA none
    sampleConfig rfl rfl
  exact ⟨h.1 samplePayload sampleRequirement,
    (h.2.1 [sampleRequirement] none [] none [] rfl rfl rfl).2⟩

/-! ### C4 -/

/-- C4 counterexample: a dynamic-resolution/requirement-building failure
(the builder throwing) escapes `processHTTPRequest` as an exception
instead of being folded into a payment-error response: the try block of
the source covers only requirement matching and verification. -/
theorem c4_counterexample :
    exceptIsOk (processHTTPRequest envBoom (compileRoutes anyRouteTable) none
      ctxA none).1 = false ∧
    (processHTTPRequest envBoom (compileRoutes anyRouteTable) none ctxA none).1 =
      Except.error (ThrownError.jsError ("boom")) :=
  ⟨rfl, rfl⟩

/-- C4 amended: provided requirement building, extension enrichment and
the route's unpaid-response generator do not throw, `processHTTPRequest`
never lets an exception escape — in particular, requirement-matching and
verification failures (reported or thrown) always degrade to a
payment-error response. (`processSettlement` returns a failure object on
every settlement failure by construction; see the settlement
contract.) -/
theorem c4_amended_no_escape (env : Env) (routes : List CompiledRoute)
    (pw : Option (PaymentRequired → Option PaywallConfig → String))
    (ctx : HTTPRequestContext) (pcfg : Option PaywallConfig)
    (hb : ∀ opts, ∃ v, env.buildPaymentRequirementsFromOptions opts ctx = Except.ok v)
    (he : ∀ e, ∃ v, env.enrichExtensions e ctx = Except.ok v)
    (hu : ∀ r ∈ routes, ∀ f, r.config.unpaidResponseBody = some f →
      ∃ v, f ctx = Except.ok v) :
    exceptIsOk (processHTTPRequest env routes pw ctx pcfg).1 = true := by
  cases hrt : getRouteConfig routes ctx.path ctx.method with
  | none =>
    simp [processHTTPRequest, hrt, exceptIsOk]
  | some rc =>
    obtain ⟨reqs, hbr⟩ := hb (normalizePaymentOptions rc)
    have hmem : ∃ r ∈ routes, r.config = rc := by
      rw [getRouteConfig_eq_find] at hrt
      rcases Option.map_eq_some'.mp hrt with ⟨r, hfind, hcfg⟩
      exact ⟨r, List.mem_of_find?_eq_some hfind, hcfg⟩
    have hext : ∃ ext' elog, extStep env rc.extensions ctx = (Except.ok ext', elog) := by
      cases hrc : rc.extensions with
      | none => exact ⟨none, [], by simp [extStep]⟩
      | some e =>
        obtain ⟨v, hv⟩ := he e
        exact ⟨some v, [Call.enrich], by simp [extStep, hv]⟩
    obtain ⟨ext', elog, hex⟩ := hext
    have hunp : ∃ ub ulog, unpaidStep rc ctx = (Except.ok ub, ulog) := by
      cases hrb : rc.unpaidResponseBody with
      | none => exact ⟨none, [], by simp [unpaidStep, hrb]⟩
      | some f =>
        obtain ⟨r, hr, hrc⟩ := hmem
        obtain ⟨v, hv⟩ := hu r hr f (by rw [hrc, hrb])
        exact ⟨some v, [Call.unpaidBody], by simp [unpaidStep, hrb, hv]⟩
    obtain ⟨ub, ulog, hup⟩ := hunp
    cases hp : extractPayment env ctx.adapter with
    | none =>
      simp [processHTTPRequest, hrt, hbr, hex, hp, hup, exceptIsOk]
    | some pp =>
      cases hf : env.findMatchingRequirements reqs pp with
      | error e =>
        simp [processHTTPRequest, hrt, hbr, hex, hp, hf,
          createPaymentRequiredResponse, exceptIsOk]
      | ok om =>
        cases om with
        | none =>
          simp [processHTTPRequest, hrt, hbr, hex, hp, hf,
            createPaymentRequiredResponse, exceptIsOk]
        | some m =>
          cases hv : env.verifyPayment pp m with
          | error e =>
            simp [processHTTPRequest, hrt, hbr, hex, hp, hf, hv,
              createPaymentRequiredResponse, exceptIsOk]
          | ok vr =>
            cases hiv : vr.isValid with
            | true =>
              simp [processHTTPRequest, hrt, hbr, hex, hp, hf, hv, hiv,
                createPaymentRequiredResponse, exceptIsOk]
            | false =>
              simp [processHTTPRequest, hrt, hbr, hex, hp, hf, hv, hiv,
                createPaymentRequiredResponse, exceptIsOk]

/-- C4 witness: with benign collaborators no exception escapes. -/
theorem c4_witness :
    exceptIsOk (processHTTPRequest sampleEnv (compileRoutes anyRouteTable) none
      ctxA none).1 = true := by
  refine c4_amended_no_escape sampleEnv (compileRoutes anyRouteTable) none ctxA none
    (fun opts => ⟨[sampleRequirement], rfl⟩) (fun e => ⟨e, rfl⟩) ?_
  intro r hr f hf
  have hr2 : r.config = sampleConfig := by
    simp only [anyRouteTable, compileRoutes, normalizedRouteEntries, List.map] at hr
    rcases List.mem_singleton.mp hr with h
    rw [h]
  rw [hr2] at hf
  simp [sampleConfig] at hf

/-! ### C8: helper lemmas about the normalization pipeline -/

/-- Percent decoding of a `%`-free list passes every character through. -/
theorem percentDecode_no_pct (l : List Char) (h : ∀ c ∈ l, c ≠ '%') :
    percentDecode l = some (l.map DecItem.ch) := by
  induction l with
  | nil => rfl
  | cons c rest ih =>
    have hc : c ≠ '%' := h c (List.mem_cons_self c rest)
    rw [percentDecode.eq_def]
    dsimp only
    rw [if_neg hc, ih (fun x hx => h x (List.mem_cons_of_mem c hx))]
    rfl

/-- UTF-8 assembly of pass-through characters is the identity. -/
theorem utf8Assemble_map_ch (l : List Char) :
    utf8Assemble (l.map DecItem.ch) = some l := by
  induction l with
  | nil => rfl
  | cons c rest ih =>
    show (utf8Assemble (rest.map DecItem.ch)).map (c :: ·) = some (c :: rest)
    rw [ih]
    rfl

/-- `decodeURIComponent` on a `%`-free list succeeds and is the
identity. -/
theorem decode_no_pct (l : List Char) (h : ∀ c ∈ l, c ≠ '%') :
    decodeURIComponentChars l = some l := by
  unfold decodeURIComponentChars
  rw [percentDecode_no_pct l h]
  simp [utf8Assemble_map_ch]

theorem takeWhile_all {α : Type} (p : α → Bool) (l : List α)
    (h : ∀ c ∈ l, p c = true) : l.takeWhile p = l := by
  induction l with
  | nil => rfl
  | cons a t ih =>
    rw [List.takeWhile_cons]
    simp [h a (List.mem_cons_self a t),
      ih (fun c hc => h c (List.mem_cons_of_mem a hc))]

theorem takeWhile_append_stop {α : Type} (p : α → Bool) (l t : List α) (sep : α)
    (h : ∀ c ∈ l, p c = true) (hsep : p sep = false) :
    (l ++ sep :: t).takeWhile p = l := by
  induction l with
  | nil => simp [List.takeWhile_cons, hsep]
  | cons a r ih =>
    simp [List.takeWhile_cons, h a (by simp),
      ih (fun c hc => h c (by simp [hc]))]

theorem twPred {α : Type} (p : α → Bool) (l : List α) :
    ∀ c ∈ l.takeWhile p, p c = true := by
  induction l with
  | nil => simp
  | cons a t ih =>
    rw [List.takeWhile_cons]
    by_cases ha : p a = true
    · simp only [ha, if_true]
      intro c hc
      rcases List.mem_cons.mp hc with h | h
      · rw [h]; exact ha
      · exact ih c h
    · simp [ha]

theorem mem_of_mem_dropWhile {α : Type} (p : α → Bool) (l : List α) (c : α) :
    c ∈ l.dropWhile p → c ∈ l := by
  induction l with
  | nil => simp
  | cons a t ih =>
    rw [List.dropWhile_cons]
    by_cases ha : p a = true
    · simp only [ha, if_true]
      intro h
      exact List.mem_cons_of_mem a (ih h)
    · simp [ha]

theorem dropWhile_head_false {α : Type} (p : α → Bool) (l : List α) (a : α)
    (t : List α) : l.dropWhile p = a :: t → p a = false := by
  induction l with
  | nil => intro h; simp at h
  | cons x r ih =>
    rw [List.dropWhile_cons]
    by_cases hx : p x = true
    · simp only [hx, if_true]
      exact ih
    · simp only [hx]
      intro h
      rw [if_neg (by simp [hx])] at h
      cases h
      simpa using hx

theorem mem_of_getLast?_eq {α : Type} (l : List α) (a : α)
    (h : l.getLast? = some a) : a ∈ l := by
  rw [← List.head?_reverse] at h
  rw [← List.mem_reverse]
  exact List.mem_of_mem_head? h

/-- Collapsing preserves the head. -/
theorem collapseSlashes_cons (xs : List Char) :
    ∀ x, ∃ t, collapseSlashes (x :: xs) = x :: t := by
  induction xs with
  | nil => intro x; exact ⟨[], rfl⟩
  | cons y r ih =>
    intro x
    by_cases hxy : x = '/' ∧ y = '/'
    · obtain ⟨t, ht⟩ := ih y
      refine ⟨t, ?_⟩
      rw [show collapseSlashes (x :: y :: r) = collapseSlashes (y :: r) from by
        simp [collapseSlashes, hxy]]
      rw [ht, hxy.1, hxy.2]
    · exact ⟨collapseSlashes (y :: r), by simp [collapseSlashes, hxy]⟩

/-- Collapsed lists have no adjacent slashes. -/
theorem hasDoubleSlash_collapse (l : List Char) :
    hasDoubleSlash (collapseSlashes l) = false := by
  induction l with
  | nil => rfl
  | cons a t ih =>
    cases t with
    | nil => rfl
    | cons b rest =>
      by_cases h : a = '/' ∧ b = '/'
      · rw [show collapseSlashes (a :: b :: rest) = collapseSlashes (b :: rest) from by
          simp [collapseSlashes, h]]
        exact ih
      · rw [show collapseSlashes (a :: b :: rest) = a :: collapseSlashes (b :: rest) from by
          simp [collapseSlashes, h]]
        obtain ⟨t2, ht2⟩ := collapseSlashes_cons rest b
        rw [ht2, hasDoubleSlash]
        have h1 : (a == '/' && b == '/') = false := by
          rcases not_and_or.mp h with hx | hx <;> simp [hx]
        rw [h1, ← ht2, ih]
        rfl

/-- A list with no adjacent slashes is unchanged by collapsing. -/
theorem collapse_of_noDouble (l : List Char) (h : hasDoubleSlash l = false) :
    collapseSlashes l = l := by
  induction l with
  | nil => rfl
  | cons a t ih =>
    cases t with
    | nil => rfl
    | cons b rest =>
      rw [hasDoubleSlash] at h
      have h1 : (a == '/' && b == '/') = false := by
        rcases Bool.or_eq_false_iff.mp h with ⟨h1, _⟩
        exact h1
      have h2 : hasDoubleSlash (b :: rest) = false := by
        rcases Bool.or_eq_false_iff.mp h with ⟨_, h2⟩
        exact h2
      have hne : ¬(a = '/' ∧ b = '/') := by
        intro ⟨ha, hb⟩
        simp [ha, hb] at h1
      rw [show collapseSlashes (a :: b :: rest) = a :: collapseSlashes (b :: rest) from by
        simp [collapseSlashes, hne]]
      rw [ih h2]

/-- Adjacent slashes on the left survive appending. -/
theorem hasDouble_append_of_left (l t : List Char)
    (h : hasDoubleSlash l = true) : hasDoubleSlash (l ++ t) = true := by
  induction l with
  | nil => simp [hasDoubleSlash] at h
  | cons a r ih =>
    cases r with
    | nil => simp [hasDoubleSlash] at h
    | cons b u =>
      rw [hasDoubleSlash] at h
      rw [List.cons_append, List.cons_append, hasDoubleSlash]
      rcases Bool.or_eq_true_iff.mp h with h1 | h2
      · rw [h1]; rfl
      · have := ih h2
        rw [List.cons_append] at this
        rw [this]
        simp

/-- Adjacent slashes on the right survive prepending. -/
theorem hasDouble_append_of_right (l t : List Char)
    (h : hasDoubleSlash t = true) : hasDoubleSlash (l ++ t) = true := by
  induction l with
  | nil => simpa using h
  | cons a r ih =>
    have hne : r ++ t ≠ [] := by
      intro he
      rcases List.append_eq_nil.mp he with ⟨_, ht⟩
      rw [ht] at h
      simp [hasDoubleSlash] at h
    cases hrt : r ++ t with
    | nil => exact absurd hrt hne
    | cons b u =>
      rw [List.cons_append, hrt, hasDoubleSlash, ← hrt, ih]
      simp

/-- No adjacent slashes in an append means none in the left part. -/
theorem hasDouble_append_left (l t : List Char)
    (h : hasDoubleSlash (l ++ t) = false) : hasDoubleSlash l = false := by
  by_contra hc
  rw [hasDouble_append_of_left l t (by simpa using hc)] at h
  cases h

/-- A run of at least two slashes has adjacent slashes. -/
theorem all_slash_hasDouble (l : List Char) (h : ∀ c ∈ l, c = '/')
    (hl : 2 ≤ l.length) : hasDoubleSlash l = true := by
  cases l with
  | nil => simp at hl
  | cons a t =>
    cases t with
    | nil => simp at hl
    | cons b u =>
      have ha := h a (by simp)
      have hb := h b (by simp)
      rw [hasDoubleSlash, ha, hb]
      simp

/-- Collapsing only removes characters. -/
theorem mem_collapse (l : List Char) (c : Char) :
    c ∈ collapseSlashes l → c ∈ l := by
  induction l with
  | nil => simp [collapseSlashes]
  | cons a t ih =>
    cases t with
    | nil => simp [collapseSlashes]
    | cons b rest =>
      by_cases hab : a = '/' ∧ b = '/'
      · rw [show collapseSlashes (a :: b :: rest) = collapseSlashes (b :: rest) from by
          simp [collapseSlashes, hab]]
        intro h
        exact List.mem_cons_of_mem a (ih h)
      · rw [show collapseSlashes (a :: b :: rest) = a :: collapseSlashes (b :: rest) from by
          simp [collapseSlashes, hab]]
        intro h
        rcases List.mem_cons.mp h with h | h
        · rw [h]; exact List.mem_cons_self a _
        · exact List.mem_cons_of_mem a (ih h)

/-- A list is its strip body followed by its trailing slash run. -/
theorem stripBody_append_run (s : List Char) :
    stripBody s ++ (trailingSlashRun s).reverse = s := by
  unfold stripBody trailingSlashRun
  rw [← List.reverse_append, List.takeWhile_append_dropWhile, List.reverse_reverse]

/-- Every character of the trailing slash run is a slash. -/
theorem trailingSlashRun_all (s : List Char) :
    ∀ c ∈ trailingSlashRun s, c = '/' := by
  intro c hc
  have := twPred (· == '/') s.reverse c hc
  simpa using this

/-- The strip body never ends in a slash. -/
theorem stripBody_getLast (s : List Char) :
    (stripBody s).getLast? ≠ some '/' := by
  unfold stripBody
  rw [List.getLast?_reverse]
  cases hd : s.reverse.dropWhile (· == '/') with
  | nil => simp
  | cons a t =>
    have hfa := dropWhile_head_false (· == '/') s.reverse a t hd
    simp only [List.head?_cons]
    intro h
    simp at h
    rw [h] at hfa
    simp at hfa

/-- An empty trailing run means the list does not end in a slash. -/
theorem getLast_ne_of_run_zero (s : List Char)
    (h : (trailingSlashRun s).length = 0) : s.getLast? ≠ some '/' := by
  unfold trailingSlashRun at h
  rw [List.length_eq_zero] at h
  cases hr : s.reverse with
  | nil =>
    have hs : s = [] := by simpa using congrArg List.reverse hr
    rw [hs]
    simp
  | cons a t =>
    rw [hr, List.takeWhile_cons] at h
    by_cases ha : (a == '/') = true
    · rw [if_pos ha] at h
      cases h
    · have ha2 : a ≠ '/' := by simpa using ha
      rw [← List.head?_reverse, hr]
      simp only [List.head?_cons]
      intro hcon
      simp at hcon
      exact ha2 hcon

/-- Without adjacent slashes the trailing run has at most one slash. -/
theorem run_le_one_of_noDouble (s : List Char)
    (h : hasDoubleSlash s = false) : (trailingSlashRun s).length ≤ 1 := by
  by_contra hc
  push_neg at hc
  have hall : ∀ c ∈ (trailingSlashRun s).reverse, c = '/' := by
    intro c hcm
    exact trailingSlashRun_all s c (List.mem_reverse.mp hcm)
  have hdt : hasDoubleSlash ((trailingSlashRun s).reverse) = true :=
    all_slash_hasDouble _ hall (by simpa using hc)
  have h2 := hasDouble_append_of_right (stripBody s) _ hdt
  rw [stripBody_append_run] at h2
  rw [h2] at h
  cases h

/-- A list not ending in a slash is unchanged by stripping. -/
theorem strip_of_no_trailing (l : List Char) (h : l.getLast? ≠ some '/') :
    stripTrailingSlashes l = l := by
  have hk : (trailingSlashRun l).length = 0 := by
    unfold trailingSlashRun
    cases hr : l.reverse with
    | nil => simp
    | cons a t =>
      have ha : a ≠ '/' := by
        intro hEq
        apply h
        rw [← List.head?_reverse, hr, hEq]
        rfl
      rw [List.takeWhile_cons, if_neg (by simpa using ha)]
      rfl
  unfold stripTrailingSlashes
  rw [if_pos hk]

/-- A line terminator is not a slash. -/
theorem lineTerminator_ne_slash (c : Char) (h : isLineTerminator c = true) :
    (c == '/') = false := by
  rw [beq_eq_false_iff_ne]
  intro he
  rw [he] at h
  exact absurd h (by decide)

/-- A list ending in a line terminator yields it via `getLast?`. -/
theorem lastTerm_exists (l : List Char) (h : lastIsLineTerminator l = true) :
    ∃ c, l.getLast? = some c ∧ isLineTerminator c = true := by
  unfold lastIsLineTerminator at h
  cases hg : l.getLast? with
  | none => rw [hg] at h; cases h
  | some c => rw [hg] at h; exact ⟨c, rfl, h⟩

/-- Stripping keeps a lone slash after a body ending in a line
terminator. -/
theorem strip_append_slash_of_last_term (B : List Char) (c : Char)
    (h : B.getLast? = some c) (hterm : isLineTerminator c = true) :
    stripTrailingSlashes (B ++ ['/']) = B ++ ['/'] := by
  have hcs : (c == '/') = false := lineTerminator_ne_slash c hterm
  have hBrev : B.reverse.head? = some c := by
    rw [List.head?_reverse]
    exact h
  cases hr : B.reverse with
  | nil => rw [hr] at hBrev; cases hBrev
  | cons a t =>
    have ha : a = c := by
      rw [hr] at hBrev
      simpa using hBrev
    have hrun : trailingSlashRun (B ++ ['/']) = ['/'] := by
      unfold trailingSlashRun
      rw [List.reverse_append, hr, ha]
      simp [List.takeWhile_cons, hcs]
    have hbody : stripBody (B ++ ['/']) = B := by
      unfold stripBody
      rw [List.reverse_append, hr, ha]
      simp only [List.reverse_singleton, List.singleton_append, List.dropWhile_cons]
      simp only [show (('/' : Char) == '/') = true from rfl, if_true]
      rw [if_neg (by simp [hcs])]
      rw [← ha, ← hr, List.reverse_reverse]
    unfold stripTrailingSlashes
    rw [hrun, hbody]
    rw [if_neg (by simp), if_neg (by simp [lastIsLineTerminator, h, hterm]),
      if_neg (by simp)]

/-- Stripping trailing slashes is idempotent. -/
theorem stripTrailingSlashes_idem (s : List Char) :
    stripTrailingSlashes (stripTrailingSlashes s) = stripTrailingSlashes s := by
  by_cases h1 : (trailingSlashRun s).length = 0
  · have hs : stripTrailingSlashes s = s := by
      unfold stripTrailingSlashes
      rw [if_pos h1]
    rw [hs]
    exact hs
  · by_cases h2 : stripBody s ≠ [] ∧ lastIsLineTerminator (stripBody s) = false
    · have hs : stripTrailingSlashes s = stripBody s := by
        unfold stripTrailingSlashes
        rw [if_neg h1, if_pos h2]
      rw [hs]
      exact strip_of_no_trailing _ (stripBody_getLast s)
    · by_cases h3 : 2 ≤ (trailingSlashRun s).length
      · have hs : stripTrailingSlashes s = stripBody s ++ ['/'] := by
          unfold stripTrailingSlashes
          rw [if_neg h1, if_neg h2, if_pos h3]
        rw [hs]
        rcases not_and_or.mp h2 with hB | hB
        · have hB0 : stripBody s = [] := by simpa using hB
          rw [hB0]
          simp only [List.nil_append]
          decide
        · have hBt : lastIsLineTerminator (stripBody s) = true := by simpa using hB
          obtain ⟨c, hgl, hterm⟩ := lastTerm_exists _ hBt
          exact strip_append_slash_of_last_term _ c hgl hterm
      · have hs : stripTrailingSlashes s = s := by
          unfold stripTrailingSlashes
          rw [if_neg h1, if_neg h2, if_neg h3]
        rw [hs]
        exact hs

/-- The strip body only removes characters. -/
theorem mem_stripBody (s : List Char) (c : Char) :
    c ∈ stripBody s → c ∈ s := by
  unfold stripBody
  intro h
  rw [List.mem_reverse] at h
  have := mem_of_mem_dropWhile _ _ _ h
  rw [List.mem_reverse] at this
  exact this

/-- Characters of a stripped list come from the list or are slashes. -/
theorem mem_strip (s : List Char) (c : Char) :
    c ∈ stripTrailingSlashes s → c ∈ s ∨ c = '/' := by
  unfold stripTrailingSlashes
  split_ifs with h1 h2 h3
  · exact fun h => Or.inl h
  · exact fun h => Or.inl (mem_stripBody s c h)
  · intro h
    rcases List.mem_append.mp h with h | h
    · exact Or.inl (mem_stripBody s c h)
    · right
      simpa using h
  · exact fun h => Or.inl h

/-- Stripping preserves the absence of adjacent slashes. -/
theorem hasDouble_strip (s : List Char) (h : hasDoubleSlash s = false) :
    hasDoubleSlash (stripTrailingSlashes s) = false := by
  have hk := run_le_one_of_noDouble s h
  unfold stripTrailingSlashes
  split_ifs with h1 h2 h3
  · exact h
  · refine hasDouble_append_left _ ((trailingSlashRun s).reverse) ?_
    rw [stripBody_append_run]
    exact h
  · exact absurd h3 (by omega)
  · exact h

/-- A collapsed list free of line terminators, after stripping, is the
root path or does not end in a slash. -/
theorem strip_no_trailing_disj (s : List Char) (hnd : hasDoubleSlash s = false)
    (hn : ∀ c ∈ s, isLineTerminator c = false) :
    stripTrailingSlashes s = ['/'] ∨
      (stripTrailingSlashes s).getLast? ≠ some '/' := by
  have hk := run_le_one_of_noDouble s hnd
  unfold stripTrailingSlashes
  split_ifs with h1 h2 h3
  · exact Or.inr (getLast_ne_of_run_zero s h1)
  · exact Or.inr (stripBody_getLast s)
  · exact absurd h3 (by omega)
  · left
    have hB : stripBody s = [] := by
      rcases not_and_or.mp h2 with hB | hB
      · simpa using hB
      · exfalso
        have hBt : lastIsLineTerminator (stripBody s) = true := by simpa using hB
        obtain ⟨c, hgl, hterm⟩ := lastTerm_exists _ hBt
        have hcm : c ∈ s := mem_stripBody s _ (mem_of_getLast?_eq _ _ hgl)
        rw [hn c hcm] at hterm
        cases hterm
    have hk1 : (trailingSlashRun s).length = 1 := by omega
    have hsr := stripBody_append_run s
    rw [hB, List.nil_append] at hsr
    have hrun : trailingSlashRun s = ['/'] := by
      cases hr : trailingSlashRun s with
      | nil => rw [hr] at hk1; simp at hk1
      | cons a u =>
        have ha : a = '/' := trailingSlashRun_all s a (by
          rw [hr]
          exact List.mem_cons_self a u)
        rw [hr, List.length_cons] at hk1
        have hu : u = [] := List.eq_nil_of_length_eq_zero (by omega)
        rw [ha, hu]
    rw [hrun] at hsr
    simp at hsr
    exact hsr.symm

/-- Backslash canonicalization leaves no backslashes. -/
theorem replace_no_backslash (l : List Char) : '\\' ∉ replaceBackslashes l := by
  unfold replaceBackslashes
  intro h
  rcases List.mem_map.mp h with ⟨c, hc, he⟩
  by_cases hcb : c = '\\'
  · rw [if_pos hcb] at he
    exact absurd he (by decide)
  · rw [if_neg hcb] at he
    exact hcb he

/-- A backslash-free list is unchanged by canonicalization. -/
theorem replace_id (l : List Char) (h : '\\' ∉ l) : replaceBackslashes l = l := by
  unfold replaceBackslashes
  have hfix : ∀ c ∈ l, (if c = '\\' then '/' else c) = c := by
    intro c hc
    have hne : c ≠ '\\' := fun he => h (he ▸ hc)
    rw [if_neg hne]
  induction l with
  | nil => rfl
  | cons a t ih =>
    rw [List.map_cons, hfix a (List.mem_cons_self a t),
      ih (fun he => h (List.mem_cons_of_mem a he))
        (fun c hc => hfix c (List.mem_cons_of_mem a hc))]

/-! ### C8 -/

/-- C8 counterexample: each clause of the claim fails on the code at a
concrete input. Normalization is not idempotent: the already-normalized
outputs of `/%2525`, `/%3F` and `/%23` (namely `/%25`, `/?` and `/#`)
are percent-decoded, query-split or fragment-split again on a second
application. The query is NOT always dropped: on a decoding failure the
catch returns the whole original path, query included (`/a%?q=1`). The
trailing separator is NOT always stripped: a decoding failure returns
the slash-terminated original (`/a%/`), and a decoded path ending in a
line terminator before the slash run keeps its trailing slash, because
the regex `.` cannot match the terminator (`/a%0D/` stays `/a\r/`). -/
theorem c8_counterexample :
    normalizePath (normalizePath ("/%2525")) ≠ normalizePath ("/%2525") ∧
    normalizePath (normalizePath ("/%3F")) ≠ normalizePath ("/%3F") ∧
    normalizePath (normalizePath ("/%23")) ≠ normalizePath ("/%23") ∧
    normalizePath ("/a%?q=1") = "/a%?q=1" ∧
    normalizePath ("/a%/") = "/a%/" ∧
    normalizePath ("/a%0D/") = "/a\r/" := by decide

/-- C8 (amended): query and fragment are dropped for every path whose
pre-separator part percent-decodes successfully (a decoding failure
returns the original path, query intact — counterexample `/a%?q=1`);
for every path whose pre-query part decodes successfully to a string
free of line terminators, trailing separators are stripped except from
the root (counterexamples `/a%/` and `/a%0D/`); and normalization is
idempotent on every path whose normalized form contains no percent sign
and no query or fragment separator (counterexamples `/%2525`, `/%3F`,
`/%23`, whose outputs are decoded or split again). -/
theorem c8_amended_normalization (p : List Char) :
    (∀ (sep : Char) (t : List Char), (sep = '?' ∨ sep = '#') →
        (∀ c ∈ p, c ≠ '?' ∧ c ≠ '#') →
        decodeURIComponentChars p ≠ none →
        normalizePathChars (p ++ sep :: t) = normalizePathChars p) ∧
    (∀ d, decodeURIComponentChars (dropQueryFragment p) = some d →
        (∀ c ∈ d, isLineTerminator c = false) →
        (normalizePathChars p = ['/'] ∨
          (normalizePathChars p).getLast? ≠ some '/')) ∧
    ((∀ c ∈ normalizePathChars p, c ≠ '%' ∧ c ≠ '?' ∧ c ≠ '#') →
        normalizePathChars (normalizePathChars p) = normalizePathChars p) := by
  refine ⟨?_, ?_, ?_⟩
  · intro sep t hsep hp hdec
    have hpred : ∀ c ∈ p, (!(c == '?' || c == '#')) = true := by
      intro c hc
      have := hp c hc
      simp [this.1, this.2]
    have hdq1 : dropQueryFragment (p ++ sep :: t) = p := by
      unfold dropQueryFragment
      exact takeWhile_append_stop _ p t sep hpred
        (by rcases hsep with h | h <;> simp [h])
    have hdq2 : dropQueryFragment p = p := by
      unfold dropQueryFragment
      exact takeWhile_all _ p hpred
    unfold normalizePathChars
    rw [hdq1, hdq2]
    cases hd : decodeURIComponentChars p with
    | none => exact absurd hd hdec
    | some d => rfl
  · intro d hd hn
    have hq : normalizePathChars p =
        stripTrailingSlashes (collapseSlashes (replaceBackslashes d)) := by
      unfold normalizePathChars
      rw [hd]
    rw [hq]
    have hnd : hasDoubleSlash (collapseSlashes (replaceBackslashes d)) = false :=
      hasDoubleSlash_collapse _
    have hnx : ∀ c0 ∈ collapseSlashes (replaceBackslashes d),
        isLineTerminator c0 = false := by
      intro c0 hmem
      have h2 := mem_collapse _ _ hmem
      unfold replaceBackslashes at h2
      rcases List.mem_map.mp h2 with ⟨c1, hc1, he⟩
      by_cases hcb : c1 = '\\'
      · rw [if_pos hcb] at he
        rw [← he]
        decide
      · rw [if_neg hcb] at he
        rw [← he]
        exact hn c1 hc1
    exact strip_no_trailing_disj _ hnd hnx
  · intro hq
    cases hdec : decodeURIComponentChars (dropQueryFragment p) with
    | none =>
      have hqp : normalizePathChars p = p := by
        unfold normalizePathChars
        rw [hdec]
      rw [hqp]
      exact hqp
    | some d =>
      have hqd : normalizePathChars p =
          stripTrailingSlashes (collapseSlashes (replaceBackslashes d)) := by
        unfold normalizePathChars
        rw [hdec]
      rw [hqd] at hq ⊢
      have hx_nd : hasDoubleSlash (collapseSlashes (replaceBackslashes d)) = false :=
        hasDoubleSlash_collapse _
      have hq_nd : hasDoubleSlash
          (stripTrailingSlashes (collapseSlashes (replaceBackslashes d))) = false :=
        hasDouble_strip _ hx_nd
      have hq_nb : '\\' ∉
          stripTrailingSlashes (collapseSlashes (replaceBackslashes d)) := by
        intro hmem
        rcases mem_strip _ _ hmem with h | h
        · exact replace_no_backslash d (mem_collapse _ _ h)
        · exact absurd h (by decide)
      have h1 : dropQueryFragment
            (stripTrailingSlashes (collapseSlashes (replaceBackslashes d))) =
          stripTrailingSlashes (collapseSlashes (replaceBackslashes d)) := by
        unfold dropQueryFragment
        apply takeWhile_all
        intro c hc
        have := hq c hc
        simp [this.2.1, this.2.2]
      have h2 : decodeURIComponentChars
            (stripTrailingSlashes (collapseSlashes (replaceBackslashes d))) =
          some (stripTrailingSlashes (collapseSlashes (replaceBackslashes d))) :=
        decode_no_pct _ (fun c hc => (hq c hc).1)
      have h3 : replaceBackslashes
            (stripTrailingSlashes (collapseSlashes (replaceBackslashes d))) =
          stripTrailingSlashes (collapseSlashes (replaceBackslashes d)) :=
        replace_id _ hq_nb
      have h4 : collapseSlashes
            (stripTrailingSlashes (collapseSlashes (replaceBackslashes d))) =
          stripTrailingSlashes (collapseSlashes (replaceBackslashes d)) :=
        collapse_of_noDouble _ hq_nd
      have h5 := stripTrailingSlashes_idem (collapseSlashes (replaceBackslashes d))
      unfold normalizePathChars
      rw [h1, h2]
      show stripTrailingSlashes (collapseSlashes (replaceBackslashes
          (stripTrailingSlashes (collapseSlashes (replaceBackslashes d))))) =
        stripTrailingSlashes (collapseSlashes (replaceBackslashes d))
      rw [h3, h4, h5]

/-- C8 witness: dropping a query from a decodable path, stripping the
trailing separator of a decodable terminator-free path, and idempotence
on a path whose normalized form has no percent or separator
characters. -/
theorem c8_witness :
    normalizePathChars (("/a").toList ++ '?' :: ("x=1").toList) =
      normalizePathChars (("/a").toList) ∧
    (normalizePathChars (("/a/").toList) = ['/'] ∨
      (normalizePathChars (("/a/").toList)).getLast? ≠ some '/') ∧
    normalizePathChars (normalizePathChars (("//a//").toList)) =
      normalizePathChars (("//a//").toList) := by
  refine ⟨?_, ?_, ?_⟩
  · exact (c8_amended_normalization (("/a").toList)).1 '?' (("x=1").toList)
      (Or.inl rfl) (by decide) (by decide)
  · exact (c8_amended_normalization (("/a/").toList)).2.1 (("/a/").toList)
      (by decide) (by decide)
  · exact (c8_amended_normalization (("//a//").toList)).2.2 (by decide)

end X402


